import Mathlib

/-! # ChinaDNS: a shallow embedding of `src/chinadns.c`

The development follows the C source function by function.

Conventions of the embedding

* IPv4 addresses (`struct in_addr`, `in_addr_t`) are natural numbers below `2 ^ 32` holding the
  *host byte order* value, that is `ntohl (s_addr)`.  `ntohl` is a bijection on 32-bit words, so
  the source's comparisons of raw `s_addr` words for equality are comparisons of these values.
* C `int` results that are used as truth values (`0` / `1`) are `Bool`.  C counters, lengths
  and array indices (`int`, `size_t`, `ssize_t`) are natural numbers; the sums the source forms
  of them stay below `2 ^ 31` for an index of at most `2 ^ 30` entries and for datagrams of at
  most `BUF_SIZE` bytes, and the bytes of a datagram are numbers below `256`.
* A C function whose execution can leave the defined behaviour of C (a read outside an array, a
  write past a static buffer, a null pointer dereference, a shift by the width of `int`) returns
  an `Option`; `none` stands for "the source has no defined result here".  Loops are unrolled
  with a fuel argument; for each of them a theorem shows that the fuel supplied by the caller
  is never exhausted.
* `libresolv` (`ns_initparse`, `ns_parserr`) and `libc` (`atoi`, `inet_aton`) are not part of
  the repository; they are parameters of the embedding.
* The field `compression_buf` of a state lists the cells of memory from the address of the
  array `compression_buf` on.  The initial state has the 512 cells of the array, so that a write
  past the array has no defined result there.
* Output on `stdout` and `stderr` (`LOG`, `ERR`, `VERR`, `printf`) is not part of the state, and
  `hostname_from_question`, whose result is only logged, is left out.  Every call of `sendto`
  is recorded, whatever its return value.
-/

namespace ChinaDNS

/-! ## Data model (`chinadns.c`, lines 20-46) -/

/-- The constant `UINT32_MAX`. -/
def UINT32_MAX : Nat := 4294967295

/-- The constant `BUF_SIZE` (line 43). -/
def BUF_SIZE : Nat := 512

/-- The constant `AF_INET` of the socket API. -/
def AF_INET : Nat := 2

/-- The record `net_mask_t` (lines 31-34): a network address and the mask of its host bits. -/
structure net_mask_t where
  net : Nat
  mask : Nat
deriving DecidableEq, Repr

/-! ## The prefix index (`cmp_net_mask`, `test_ip_in_list`) -/

/-- The comparison `cmp_net_mask` (lines 312-321). -/
def cmp_net_mask (neta netb : net_mask_t) : Int :=
  if neta.net = netb.net then 0
  else if neta.net > netb.net then 1
  else -1

/-- The `while (l != r)` loop of `test_ip_in_list` (lines 388-405).  The result is the value of
`l` when the loop is left; `none` when the fuel runs out or `nets[m]` is outside the array. -/
def search_loop (nets : List net_mask_t) (ip : Nat) : Nat → Nat → Nat → Option Nat
  | 0, _, _ => none
  | fuel + 1, l, r =>
    if l = r then some l
    else
      let m := (l + r) / 2
      match nets[m]? with
      | none => none
      | some e =>
        if cmp_net_mask ⟨ip, 0⟩ e = -1 then
          if r ≠ m then search_loop nets ip fuel l m else some l
        else
          if l ≠ m then search_loop nets ip fuel m r else some l

/-- The final test of `test_ip_in_list` (lines 409-413) against the entry `e`. -/
def net_test (ip : Nat) (e : net_mask_t) : Bool :=
  if (e.net ^^^ ip) &&& (UINT32_MAX ^^^ e.mask) ≠ 0 then false else true

/-- The function `test_ip_in_list` (lines 380-414).  `netlist.entries` is the length of the
list. -/
def test_ip_in_list (ip : Nat) (netlist : List net_mask_t) : Option Bool :=
  if netlist.length = 0 then some false
  else
    match search_loop netlist ip netlist.length 0 (netlist.length - 1) with
    | none => none
    | some l =>
      match netlist[l]? with
      | none => none
      | some e => some (net_test ip e)

/-- Dotted-quad notation for an address, `ip4 a b c d = a.b.c.d` in host byte order. -/
def ip4 (a b c d : Nat) : Nat := ((a * 256 + b) * 256 + c) * 256 + d

/-- The index of scenario S1, `1.0.0.0/8` and `8.8.8.0/24`, sorted by network address. -/
def S1_index : List net_mask_t :=
  [⟨ip4 1 0 0 0, 16777215⟩, ⟨ip4 8 8 8 0, 255⟩]

/-- The containment test of the specification: `a` belongs to the prefix `(n, m)` iff
`(a XOR n) AND (NOT m) == 0`. -/
def covers (e : net_mask_t) (a : Nat) : Bool :=
  (a ^^^ e.net) &&& (UINT32_MAX ^^^ e.mask) == 0

/-- The entry with the greatest network address that is `≤ a`, if there is one. -/
def greatest_le (a : Nat) : List net_mask_t → Option net_mask_t
  | [] => none
  | e :: rest =>
    match greatest_le a rest with
    | none => if e.net ≤ a then some e else none
    | some b => if e.net ≤ a ∧ b.net < e.net then some e else some b

/-- The reference definition of `PrefixIndex.contains`, following the words of the
specification: find the greatest entry whose network address is `≤ a`, then test containment
under that entry's mask; false when there is no such entry (in particular on the empty index). -/
def contains_spec (a : Nat) (index : List net_mask_t) : Bool :=
  match greatest_le a index with
  | none => false
  | some e => covers e a

/-! ## Building the index (`parse_chnroute`) -/

/-- The two `libc` functions called by `parse_chnroute`.  `inet_aton` yields the host byte order
value of the address it stores, `none` when it returns `0`. -/
structure Libc where
  atoi : List Char → Int
  inet_aton : List Char → Option Nat

/-- The idiom `p = strchr(line, c); if (p) *p = 0;` (lines 355-361): the string is cut at the
first occurrence of `c`. -/
def cut_at (c : Char) (line : List Char) : List Char :=
  line.takeWhile (fun x => x != c)

/-- The string `sp_pos + 1` after the first occurrence of `c`. -/
def after (c : Char) (line : List Char) : List Char :=
  (line.dropWhile (fun x => x != c)).drop 1

/-- The C expression `1 << k` on the 32-bit type `int`.  The behaviour is undefined when the
shift count is negative or not smaller than the width of `int`; for `k = 31` the value is
taken modulo `2 ^ 32` by `host_mask`. -/
def shl_one (k : Int) : Option Int :=
  if 0 ≤ k ∧ k < 32 then some (2 ^ k.toNat) else none

/-- The expression `(1 << (32 - n)) - 1` of line 362, stored into the 32-bit `in_addr_t`. -/
def host_mask (n : Int) : Option Nat :=
  match shl_one (32 - n) with
  | none => none
  | some v => some ((v - 1) % 4294967296).toNat

/-- The body of the second `fgets` loop of `parse_chnroute` (lines 354-369) for one line.
`none`: undefined behaviour; `some none`: `inet_aton` rejected the address, the function
returns `1`; `some (some e)`: the entry stored in `chnroute_list.nets[i]`. -/
def parse_line (L : Libc) (line : List Char) : Option (Option net_mask_t) :=
  let line := cut_at '\r' line
  let line := cut_at '\n' line
  let mask := if '/' ∈ line then host_mask (L.atoi (after '/' line)) else some UINT32_MAX
  match mask with
  | none => none
  | some mask =>
    match L.inet_aton (cut_at '/' line) with
    | none => some none
    | some net => some (some ⟨net, mask⟩)

/-- The second `fgets` loop of `parse_chnroute` (lines 353-371) over the lines of the file. -/
def parse_lines (L : Libc) : List (List Char) → Option (Option (List net_mask_t))
  | [] => some (some [])
  | line :: rest =>
    match parse_line L line with
    | none => none
    | some none => some none
    | some (some e) =>
      match parse_lines L rest with
      | none => none
      | some none => some none
      | some (some es) => some (some (e :: es))

/-- The function `parse_chnroute` (lines 323-378).  The argument is `none` when
`chnroute_file == NULL`, otherwise the lines of the file as `fgets` delivers them.  The result
is the value of `chnroute_list` on success (return value `0`), `some none` on a non-zero return
value.  `qsort` with `cmp_net_mask` is an ascending sort by network address. -/
def parse_chnroute (L : Libc) (chnroute_file : Option (List (List Char))) :
    Option (Option (List net_mask_t)) :=
  match chnroute_file with
  | none => some (some [])
  | some lines =>
    match parse_lines L lines with
    | none => none
    | some none => some none
    | some (some es) => some (some (es.insertionSort (fun a b => a.net ≤ b.net)))

/-! ### A concrete `libc` for decimal input -/

/-- Value of a string of decimal digits, read left to right with accumulator `acc`; reading
stops at the first character that is not a digit. -/
def digits_value (acc : Nat) : List Char → Nat
  | [] => acc
  | c :: cs => if c.isDigit then digits_value (acc * 10 + (c.toNat - 48)) cs else acc

/-- Decimal reading of one component of a dotted quad: one to three digits, at most 255. -/
def octet (s : List Char) : Option Nat :=
  if s ≠ [] ∧ s.length ≤ 3 ∧ s.all Char.isDigit ∧ digits_value 0 s ≤ 255
  then some (digits_value 0 s) else none

/-- Reading of `a.b.c.d` with four decimal components. -/
def dotted_quad (s : List Char) : Option Nat :=
  match s.splitOn '.' with
  | [a, b, c, d] =>
    match octet a, octet b, octet c, octet d with
    | some a, some b, some c, some d => some (ip4 a b c d)
    | _, _, _, _ => none
  | _ => none

/-- The behaviour of `atoi` on digit strings and of `inet_aton` on decimal dotted quads. -/
def decimal_libc : Libc where
  atoi := fun s => (digits_value 0 s : Nat)
  inet_aton := dotted_quad

/-! ## The filter policy (`should_filter_query`) -/

/-- A socket address (`struct sockaddr`, read as `struct sockaddr_in` by the source). -/
structure sockaddr where
  sa_family : Nat
  sin_port : Nat
  sin_addr : Nat
deriving DecidableEq, Repr

/-- An element of `chn_dns_server_addrs` or `foreign_dns_server_addrs`: the `addr` and `addrlen`
that `getaddrinfo` returned for an upstream (lines 291-298).  The `addr` pointer of such an
element is never null and its `id` field is not used. -/
structure dns_server where
  addr : sockaddr
  addrlen : Nat
deriving DecidableEq, Repr

/-- An answer record as `ns_parserr` delivers it: `ns_rr_type` and the four bytes at
`ns_rr_rdata`, read as a `struct in_addr` (line 628). -/
structure ns_rr where
  type : Nat
  rdata : Nat
deriving DecidableEq, Repr

/-- The constant `ns_t_a` of `arpa/nameser.h`. -/
def ns_t_a : Nat := 1

/-- A message handle as `ns_initparse` fills it: `ns_msg_id` and, for each of the
`ns_msg_count(msg, ns_s_an)` answer records, what `ns_parserr` yields for it (`none` when
`ns_parserr` reports an error). -/
structure ns_msg where
  id : Nat
  an : List (Option ns_rr)
deriving DecidableEq, Repr

/-- The process-wide settings that are fixed once bootstrap is over: `chnroute_file != NULL`,
`chnroute_list`, `bidirectional` and the two upstream arrays (their lengths are
`chn_dns_servers_len` and `foreign_dns_servers_len`). -/
structure Config where
  chnroute_file : Bool
  chnroute_list : List net_mask_t
  bidirectional : Bool
  chn_dns_server_addrs : List dns_server
  foreign_dns_server_addrs : List dns_server

/-- The computation of `dns_is_chn` in `should_filter_query` (lines 605-614). -/
def dns_is_chn (cfg : Config) (dns_addr : Nat) : Bool :=
  if cfg.chnroute_file && decide (cfg.foreign_dns_server_addrs.length > 0) then
    cfg.chn_dns_server_addrs.any (fun srv => dns_addr == srv.addr.sin_addr)
  else false

/-- The loop over the answer section in `should_filter_query` (lines 616-644), from record
`rrnum` on; the list holds the records `rrnum .. rrmax - 1`. -/
def filter_loop (cfg : Config) (is_chn : Bool) : List (Option ns_rr) → Option Bool
  | [] => some false
  | none :: _ => some false
  | some rr :: rest =>
    if rr.type = ns_t_a then
      match test_ip_in_list rr.rdata cfg.chnroute_list with
      | none => none
      | some true =>
        if !is_chn && cfg.bidirectional then some true
        else filter_loop cfg is_chn rest
      | some false =>
        if is_chn then some true
        else filter_loop cfg is_chn rest
    else filter_loop cfg is_chn rest

/-- The function `should_filter_query` (lines 600-646). -/
def should_filter_query (cfg : Config) (msg : ns_msg) (dns_addr : Nat) : Option Bool :=
  filter_loop cfg (dns_is_chn cfg dns_addr) msg.an

/-! ## The pending table (`queue_add`, `queue_lookup`) -/

/-- The record `id_addr_t` (lines 20-24); `addr = none` is the null pointer. -/
structure id_addr_t where
  id : Nat
  addr : Option sockaddr
  addrlen : Nat
deriving DecidableEq, Repr

/-- The index `(uint8_t)(id & 0xff)` into `id_addr_queue`. -/
def slot (id : Nat) : Fin 256 :=
  ⟨(id &&& 255) % 256, Nat.mod_lt _ (by decide)⟩

/-- The function `queue_add` (lines 557-563) on the array `id_addr_queue`. -/
def queue_add (queue : Fin 256 → id_addr_t) (id_addr : id_addr_t) : Fin 256 → id_addr_t :=
  Function.update queue (slot id_addr.id) id_addr

/-- The function `queue_lookup` (lines 565-571); `none` is the `NULL` result. -/
def queue_lookup (queue : Fin 256 → id_addr_t) (id : Nat) : Option id_addr_t :=
  if (queue (slot id)).id = id then some (queue (slot id)) else none

/-- The array `id_addr_queue` after the `memset` of line 160. -/
def queue_zero : Fin 256 → id_addr_t :=
  fun _ => ⟨0, none, 0⟩

/-! ## The two handlers (`dns_handle_local`, `dns_handle_remote`) -/

/-- The two sockets of the process. -/
inductive Sock where
  | local_sock
  | remote_sock
deriving DecidableEq, Repr

/-- One call of `sendto`: the socket, the `len` bytes passed, the destination and its length. -/
structure Sendto where
  sock : Sock
  buf : List Nat
  dest_addr : sockaddr
  addrlen : Nat
deriving DecidableEq, Repr

/-- The mutable state of the process after bootstrap: the pending table, the scratch buffer
`compression_buf` and the calls of `sendto` made so far, oldest first. -/
structure State where
  id_addr_queue : Fin 256 → id_addr_t
  compression_buf : List Nat
  sent : List Sendto

/-- The state when `main` enters its loop. -/
def State.init : State where
  id_addr_queue := queue_zero
  compression_buf := List.replicate BUF_SIZE 0
  sent := []

/-- What lies outside the repository: the settings left by bootstrap and the parser
`ns_initparse` of `libresolv` (`none` when it returns a negative value). -/
structure Env where
  cfg : Config
  ns_initparse : List Nat → Option ns_msg

/-- The call `recvfrom(sock, buf, BUF_SIZE, ...)`: at most `BUF_SIZE` bytes of the datagram are
stored, and their number is the result `len`. -/
def recvfrom (dgram : List Nat) : List Nat :=
  dgram.take BUF_SIZE

/-- The call `memcpy(dst + d, src + s, n)`; `none` when it would leave either array. -/
def memcpy (dst : List Nat) (d : Nat) (src : List Nat) (s n : Nat) : Option (List Nat) :=
  if d + n ≤ dst.length ∧ s + n ≤ src.length then
    some (dst.take d ++ (src.drop s).take n ++ dst.drop (d + n))
  else none

/-- The assignment `dst[i] = v`; `none` when `i` is outside the array. -/
def store (dst : List Nat) (i v : Nat) : Option (List Nat) :=
  if i < dst.length then some (dst.set i v) else none

/-- The `while (off < len - 4)` loop of `dns_handle_local` (lines 472-481) over the received
bytes.  The result is the pair `(ended, off)` when the loop is left; `none` when the fuel runs
out or `global_buf[off]` is outside the received bytes. -/
def name_walk (global_buf : List Nat) (len : Nat) : Nat → Nat → Option (Bool × Nat)
  | 0, _ => none
  | fuel + 1, off =>
    if off < len - 4 then
      match global_buf[off]? with
      | none => none
      | some b =>
        if b &&& 192 ≠ 0 then some (false, off)
        else if b = 0 then some (true, off + 1)
        else name_walk global_buf len fuel (off + (1 + b))
    else some (false, off)

/-- Lines 483-486 of `dns_handle_local`: the rewritten query is assembled in
`compression_buf`. -/
def compress (compression_buf global_buf : List Nat) (len off : Nat) : Option (List Nat) :=
  match memcpy compression_buf 0 global_buf 0 (off - 1) with
  | none => none
  | some b1 =>
    match memcpy b1 (off + 1) global_buf off (len - off) with
    | none => none
    | some b2 =>
      match store b2 (off - 1) 192 with
      | none => none
      | some b3 => store b3 off 4

/-- A loop `for (i = 0; i < n; i++) sendto(remote_sock, buf, len, 0, servers[i].addr,
servers[i].addrlen)`. -/
def send_all (servers : List dns_server) (buf : List Nat) : List Sendto :=
  servers.map (fun srv => ⟨Sock.remote_sock, buf, srv.addr, srv.addrlen⟩)

/-- The function `dns_handle_local` (lines 443-508) for a datagram `dgram` that arrives on the
local socket from `src_addr`.  A failing `recvfrom` behaves like an empty datagram. -/
def dns_handle_local (env : Env) (s : State) (dgram : List Nat) (src_addr : sockaddr)
    (src_addrlen : Nat) : Option State :=
  let global_buf := recvfrom dgram
  let len := global_buf.length
  if len > 0 then
    match env.ns_initparse global_buf with
    | none => some s
    | some msg =>
      let query_id := msg.id % 65536
      let queue := queue_add s.id_addr_queue ⟨query_id, some src_addr, src_addrlen⟩
      if len > 16 then
        match name_walk global_buf len len 12 with
        | none => none
        | some (true, off) =>
          match compress s.compression_buf global_buf len off with
          | none => none
          | some cbuf =>
            if len + 1 ≤ cbuf.length then
              some { id_addr_queue := queue
                     compression_buf := cbuf
                     sent := s.sent
                       ++ send_all env.cfg.foreign_dns_server_addrs (cbuf.take (len + 1))
                       ++ send_all env.cfg.chn_dns_server_addrs global_buf }
            else none
        | some (false, _) =>
          some { id_addr_queue := queue
                 compression_buf := s.compression_buf
                 sent := s.sent
                   ++ send_all env.cfg.foreign_dns_server_addrs global_buf
                   ++ send_all env.cfg.chn_dns_server_addrs global_buf }
      else some { s with id_addr_queue := queue }
  else some s

/-- The function `dns_handle_remote` (lines 510-555) for a datagram `dgram` that arrives on the
remote socket from `src_addr`.  The result is `none` when the entry found has a null `addr`
(line 536 dereferences it). -/
def dns_handle_remote (env : Env) (s : State) (dgram : List Nat) (src_addr : sockaddr) :
    Option State :=
  let global_rv_buf := recvfrom dgram
  let len := global_rv_buf.length
  if len > 0 then
    match env.ns_initparse global_rv_buf with
    | none => some s
    | some msg =>
      let query_id := msg.id % 65536
      match queue_lookup s.id_addr_queue query_id with
      | none => some s
      | some id_addr =>
        match id_addr.addr with
        | none => none
        | some a =>
          let addr : sockaddr := { a with sa_family := AF_INET }
          let queue := Function.update s.id_addr_queue (slot query_id)
            { id_addr with addr := some addr }
          match should_filter_query env.cfg msg src_addr.sin_addr with
          | none => none
          | some false =>
            some { id_addr_queue := queue
                   compression_buf := s.compression_buf
                   sent := s.sent ++ [⟨Sock.local_sock, global_rv_buf, addr, id_addr.addrlen⟩] }
          | some true => some { s with id_addr_queue := queue }
  else some s

/-- One readiness event of the loop in `main`: a datagram on the local socket or on the remote
socket, with the source address `recvfrom` reports. -/
inductive Event where
  | client (dgram : List Nat) (src_addr : sockaddr) (src_addrlen : Nat)
  | upstream (dgram : List Nat) (src_addr : sockaddr)

/-- The handler `main` calls for an event (lines 198-201). -/
def step (env : Env) (s : State) : Event → Option State
  | .client dgram src_addr src_addrlen => dns_handle_local env s dgram src_addr src_addrlen
  | .upstream dgram src_addr => dns_handle_remote env s dgram src_addr

/-- A run of the loop over a sequence of events. -/
def run (env : Env) : State → List Event → Option State
  | s, [] => some s
  | s, e :: es =>
    match step env s e with
    | none => none
    | some s1 => run env s1 es

/-- The calls of `sendto` on the local socket, that is the datagrams forwarded to clients. -/
def forwarded (s : State) : List Sendto :=
  s.sent.filter (fun p => p.sock == Sock.local_sock)


/-- The network address `nets[i].net.s_addr` in host byte order; `0` outside the array. -/
def net_at (nets : List net_mask_t) (i : Nat) : Nat :=
  match nets[i]? with
  | some e => e.net
  | none => 0

/-! ## Scenario data -/

/-- An index for scenarios S4 and S5: the single prefix `203.0.113.0/24`. -/
def S4_index : List net_mask_t :=
  [⟨ip4 203 0 113 0, 255⟩]

/-- The domestic upstream of scenarios S4 and S5, `203.0.113.1:53`. -/
def S4_domestic : sockaddr :=
  ⟨AF_INET, 53, ip4 203 0 113 1⟩

/-- The foreign upstream of scenarios S4 and S5, `8.8.8.8:53`. -/
def S4_foreign : sockaddr :=
  ⟨AF_INET, 53, ip4 8 8 8 8⟩

/-- The settings of scenarios S4 (`bidirectional = false`) and S5 (`bidirectional = true`). -/
def S4_config (bidirectional : Bool) : Config where
  chnroute_file := true
  chnroute_list := S4_index
  bidirectional := bidirectional
  chn_dns_server_addrs := [⟨S4_domestic, 16⟩]
  foreign_dns_server_addrs := [⟨S4_foreign, 16⟩]

/-- A parsed response with transaction id `id` whose answer section is one A record. -/
def a_reply (id ip : Nat) : ns_msg :=
  ⟨id, [some ⟨ns_t_a, ip⟩]⟩

/-- The client `192.0.2.10:40000` of the scenarios. -/
def client_X : sockaddr :=
  ⟨AF_INET, 40000, ip4 192 0 2 10⟩

/-- The client `192.0.2.20:40001` of the scenarios. -/
def client_Y : sockaddr :=
  ⟨AF_INET, 40001, ip4 192 0 2 20⟩

/-- The wire form of the query `example.com. IN A` with transaction id `id_hi id_lo`. -/
def example_query (id_hi id_lo : Nat) : List Nat :=
  [id_hi, id_lo, 1, 0, 0, 1, 0, 0, 0, 0, 0, 0,
   7, 101, 120, 97, 109, 112, 108, 101, 3, 99, 111, 109, 0, 0, 1, 0, 1]

/-- The wire form of a response to `example_query` with the single answer `A a.b.c.d`. -/
def example_reply (id_hi id_lo a b c d : Nat) : List Nat :=
  [id_hi, id_lo, 129, 128, 0, 1, 0, 1, 0, 0, 0, 0,
   7, 101, 120, 97, 109, 112, 108, 101, 3, 99, 111, 109, 0, 0, 1, 0, 1,
   192, 12, 0, 1, 0, 1, 0, 0, 14, 16, 0, 4, a, b, c, d]

/-- What `ns_initparse` and `ns_parserr` yield on the datagrams of the scenarios: the query
`example_query 0x12 0x34` and the two responses to it with the answers `93.184.216.34` and
`203.0.113.5`.  Every other datagram is taken as rejected. -/
def example_initparse (buf : List Nat) : Option ns_msg :=
  if buf = example_query 18 52 then some ⟨4660, []⟩
  else if buf = example_reply 18 52 93 184 216 34 then some (a_reply 4660 (ip4 93 184 216 34))
  else if buf = example_reply 18 52 203 0 113 5 then some (a_reply 4660 (ip4 203 0 113 5))
  else none

/-- The settings of scenario S3: no prefix file, hence an empty index and every upstream in
the foreign pool. -/
def S3_config (bidirectional : Bool) : Config where
  chnroute_file := false
  chnroute_list := []
  bidirectional := bidirectional
  chn_dns_server_addrs := []
  foreign_dns_server_addrs := [⟨S4_domestic, 16⟩, ⟨S4_foreign, 16⟩]

/-- The environment of scenario S3. -/
def S3_env (bidirectional : Bool) : Env :=
  ⟨S3_config bidirectional, example_initparse⟩

/-- The environment of scenarios S4 and S5. -/
def S4_env (bidirectional : Bool) : Env :=
  ⟨S4_config bidirectional, example_initparse⟩

/-- The entry of slot `id & 0xff` is the pending entry of the query `id` of client `c`: it holds
`id`, the length `clen` and the address of `c`, whose family may have been overwritten. -/
def pending_for (queue : Fin 256 → id_addr_t) (id : Nat) (c : sockaddr) (clen : Nat) : Prop :=
  (queue (slot id)).id = id ∧ (queue (slot id)).addrlen = clen ∧
    ∃ a, (queue (slot id)).addr = some a ∧ a.sin_port = c.sin_port ∧ a.sin_addr = c.sin_addr

/-- The event is not a client query that `dns_handle_local` stores in slot `id & 0xff`. -/
def no_slot_clash (env : Env) (id : Nat) : Event → Prop
  | .client dgram _ _ =>
    ∀ msg, env.ns_initparse (recvfrom dgram) = some msg → (msg.id % 65536) &&& 255 ≠ id &&& 255
  | .upstream _ _ => True

/-- The wire form of a query without question: the twelve bytes of a header with transaction id
`0x1234` and all four counts zero. -/
def header_only_query : List Nat :=
  [18, 52, 1, 0, 0, 0, 0, 0, 0, 0, 0, 0]

/-- The wire form of a 512-byte query: the question `example.com. IN A` followed by one OPT
record in the additional section whose 472 bytes of rdata are an EDNS padding option. -/
def padded_query : List Nat :=
  [18, 52, 1, 0, 0, 1, 0, 0, 0, 0, 0, 1,
   7, 101, 120, 97, 109, 112, 108, 101, 3, 99, 111, 109, 0, 0, 1, 0, 1,
   0, 0, 41, 2, 0, 0, 0, 0, 0, 1, 216, 0, 12, 1, 212] ++ List.replicate 468 0

/-- The wire form of a response to `example_query 0x12 0x34` whose answer record has, as owner
name, a compression pointer to itself (offset 29): the sections can be skipped over, so
`ns_initparse` accepts the message, but the name cannot be expanded, so `ns_parserr` fails on
the record. -/
def malformed_reply : List Nat :=
  [18, 52, 129, 128, 0, 1, 0, 1, 0, 0, 0, 0,
   7, 101, 120, 97, 109, 112, 108, 101, 3, 99, 111, 109, 0, 0, 1, 0, 1,
   192, 29, 0, 1, 0, 1, 0, 0, 14, 16, 0, 4, 93, 184, 216, 34]

/-- The wire form of the query `example_query 0x12 0x34` after the rewrite: the terminator of
the question name is replaced by the compression pointer `0xC0 0x04`. -/
def rewritten_query : List Nat :=
  [18, 52, 1, 0, 0, 1, 0, 0, 0, 0, 0, 0,
   7, 101, 120, 97, 109, 112, 108, 101, 3, 99, 111, 109, 192, 4, 0, 1, 0, 1]

/-- What `ns_initparse` and `ns_parserr` yield on the datagrams of the scenarios; it extends
`example_initparse` by `header_only_query`, `padded_query`, `rewritten_query`,
`malformed_reply` and the response `example_reply 0 0 93 184 216 34` with transaction id
`0`. -/
def wire_initparse (buf : List Nat) : Option ns_msg :=
  if buf = header_only_query then some ⟨4660, []⟩
  else if buf = padded_query then some ⟨4660, []⟩
  else if buf = rewritten_query then some ⟨4660, []⟩
  else if buf = malformed_reply then some ⟨4660, [none]⟩
  else if buf = example_reply 0 0 93 184 216 34 then some (a_reply 0 (ip4 93 184 216 34))
  else example_initparse buf

/-- An environment with the parser `wire_initparse`. -/
def wire_env (cfg : Config) : Env :=
  ⟨cfg, wire_initparse⟩

/-- The label walk of the specification over the question name: `label_walk buf off p` holds
when `p` is reached from `off` by steps that each advance by `1 + b` over a length octet `b`
that is not zero and has its top two bits clear. -/
inductive label_walk (buf : List Nat) : Nat → Nat → Prop where
  | here (off : Nat) : label_walk buf off off
  | step (off b p : Nat) : buf[off]? = some b → b ≠ 0 → b &&& 192 = 0 →
      label_walk buf (off + (1 + b)) p → label_walk buf off p

/-! ## Resolving the upstreams (`resolve_dns_servers`) -/

/-- The tokens that the calls `strtok(dns_servers, ",")`, `strtok(0, ",")`, ... of lines 272 and
288 deliver, in order: the non-empty pieces of the string between commas (`strtok` of `libc`
skips empty pieces). -/
def strtok_all (dns_servers : List Char) : List (List Char) :=
  (dns_servers.splitOn ',').filter (fun t => !t.isEmpty)

/-- Lines 275-283: the token is copied into the zeroed `global_buf` by
`strncpy(global_buf, token, BUF_SIZE - 1)` and cut at the last `:` found by `strrchr`; the
result is the pair of strings `(global_buf, port)` passed to `getaddrinfo`. -/
def host_port (token : List Char) : List Char × List Char :=
  let global_buf := token.take (BUF_SIZE - 1)
  if ':' ∈ global_buf then
    (((global_buf.reverse.dropWhile (fun c => c != ':')).drop 1).reverse,
     (global_buf.reverse.takeWhile (fun c => c != ':')).reverse)
  else (global_buf, ['5', '3'])

/-- The `while (token)` loop of `resolve_dns_servers` (lines 273-301) over the remaining
tokens, with the arrays `chn_dns_server_addrs` and `foreign_dns_server_addrs` filled so far.
`getaddrinfo host port` is the first address `getaddrinfo` of `libc` returns, `none` when it
fails.  The result is `some none` when the function returns `-1`. -/
def classify_loop (getaddrinfo : List Char → List Char → Option dns_server)
    (chnroute_list : List net_mask_t) :
    List (List Char) → List dns_server → List dns_server →
      Option (Option (List dns_server × List dns_server))
  | [], chn, foreign => some (some (chn, foreign))
  | token :: rest, chn, foreign =>
    match getaddrinfo (host_port token).1 (host_port token).2 with
    | none => some none
    | some srv =>
      match test_ip_in_list srv.addr.sin_addr chnroute_list with
      | none => none
      | some true => classify_loop getaddrinfo chnroute_list rest (chn ++ [srv]) foreign
      | some false => classify_loop getaddrinfo chnroute_list rest chn (foreign ++ [srv])

/-- The function `resolve_dns_servers` (lines 258-310).  The result is the pair
`(chn_dns_server_addrs, foreign_dns_server_addrs)` when the function returns `0`, and
`some none` when it returns `-1`. -/
def resolve_dns_servers (getaddrinfo : List Char → List Char → Option dns_server)
    (chnroute_file : Bool) (chnroute_list : List net_mask_t) (dns_servers : List Char) :
    Option (Option (List dns_server × List dns_server)) :=
  match classify_loop getaddrinfo chnroute_list (strtok_all dns_servers) [] [] with
  | none => none
  | some none => some none
  | some (some (chn, foreign)) =>
    if chnroute_file then
      if !(decide (chn.length ≠ 0) && decide (foreign.length ≠ 0)) then some none
      else some (some (chn, foreign))
    else some (some (chn, foreign))

/-- The behaviour of `getaddrinfo` on a decimal dotted quad and a decimal port: one address of
family `AF_INET` and length 16. -/
def decimal_getaddrinfo (host port : List Char) : Option dns_server :=
  match dotted_quad host with
  | none => none
  | some a => some ⟨⟨AF_INET, digits_value 0 port, a⟩, 16⟩

/-- The upstream string of scenario S2. -/
def S2_dns_servers : List Char :=
  "114.114.114.114,8.8.8.8:53".toList

/-- A token of 516 characters: 511 times `a`, then `:5353`. -/
def long_token : List Char :=
  List.replicate 511 'a' ++ ":5353".toList

/-! ## Scenario data for the lookup of the last entry and for long datagrams -/

/-- The domestic upstream `1.2.3.4:53`; it lies in `1.0.0.0/8`, the first entry of `S1_index`,
where `test_ip_in_list` finds it. -/
def S1_domestic : sockaddr :=
  ⟨AF_INET, 53, ip4 1 2 3 4⟩

/-- The foreign upstream `9.9.9.9:53`; no entry of `S1_index` covers it. -/
def S1_foreign : sockaddr :=
  ⟨AF_INET, 53, ip4 9 9 9 9⟩

/-- Settings with the prefix index of scenario S1 and the two pools that
`resolve_dns_servers` builds from the upstream string `1.2.3.4,9.9.9.9`. -/
def S1_config (bidirectional : Bool) : Config where
  chnroute_file := true
  chnroute_list := S1_index
  bidirectional := bidirectional
  chn_dns_server_addrs := [⟨S1_domestic, 16⟩]
  foreign_dns_server_addrs := [⟨S1_foreign, 16⟩]

/-- A sorted index of two prefixes that covers `203.0.113.0/24`: `1.0.0.0/8` and
`203.0.113.0/24`. -/
def S4_index2 : List net_mask_t :=
  [⟨ip4 1 0 0 0, 16777215⟩, ⟨ip4 203 0 113 0, 255⟩]

/-- The settings of scenario S4 with the index `S4_index2`, the domestic upstream `1.2.3.4` and
the foreign upstream `8.8.8.8`. -/
def S4_config2 (bidirectional : Bool) : Config where
  chnroute_file := true
  chnroute_list := S4_index2
  bidirectional := bidirectional
  chn_dns_server_addrs := [⟨S1_domestic, 16⟩]
  foreign_dns_server_addrs := [⟨S4_foreign, 16⟩]

/-- The wire form of a 512-byte response to `example_query 0x12 0x34`: the answer
`A 93.184.216.34` followed by one OPT record whose 456 bytes of rdata are an EDNS padding
option. -/
def padded_reply : List Nat :=
  [18, 52, 129, 128, 0, 1, 0, 1, 0, 0, 0, 1,
   7, 101, 120, 97, 109, 112, 108, 101, 3, 99, 111, 109, 0, 0, 1, 0, 1,
   192, 12, 0, 1, 0, 1, 0, 0, 14, 16, 0, 4, 93, 184, 216, 34,
   0, 0, 41, 2, 0, 0, 0, 0, 0, 1, 200, 0, 12, 1, 196] ++ List.replicate 452 0

/-- A datagram of 513 bytes: the response `padded_reply` followed by one more byte. -/
def long_reply : List Nat :=
  padded_reply ++ [255]

/-- What `ns_initparse` and `ns_parserr` yield on the datagrams of the scenarios; it extends
`wire_initparse` by the 512 bytes of `padded_reply`. -/
def long_initparse (buf : List Nat) : Option ns_msg :=
  if buf = padded_reply then some (a_reply 4660 (ip4 93 184 216 34))
  else wire_initparse buf

/-- An environment with the parser `long_initparse`. -/
def long_env (cfg : Config) : Env :=
  ⟨cfg, long_initparse⟩

theorem search_loop_total (nets : List net_mask_t) (ip : Nat) :
    ∀ (fuel l r : Nat), l ≤ r → r < nets.length → r - l < fuel →
      ∃ k, search_loop nets ip fuel l r = some k ∧ l ≤ k ∧ k ≤ r := by
  intro fuel
  induction fuel with
  | zero => intro l r _ _ h; omega
  | succ fuel ih =>
    intro l r hlr hr hf
    unfold search_loop
    by_cases h : l = r
    · exact ⟨l, by simp [h], le_refl _, hlr⟩
    · have hm : (l + r) / 2 < nets.length := by omega
      simp only [h, if_false, List.getElem?_eq_getElem hm]
      split_ifs with h1 h2 h3
      · obtain ⟨k, hk, hk1, hk2⟩ := ih l ((l + r) / 2) (by omega) hm (by omega)
        exact ⟨k, hk, hk1, by omega⟩
      · exact ⟨l, rfl, le_refl _, hlr⟩
      · obtain ⟨k, hk, hk1, hk2⟩ := ih ((l + r) / 2) r (by omega) hr (by omega)
        exact ⟨k, hk, by omega, hk2⟩
      · exact ⟨l, rfl, le_refl _, hlr⟩

theorem test_ip_in_list_total (ip : Nat) (netlist : List net_mask_t) :
    ∃ b, test_ip_in_list ip netlist = some b := by
  unfold test_ip_in_list
  by_cases h : netlist.length = 0
  · exact ⟨false, by simp [h]⟩
  · obtain ⟨k, hk, _, hk2⟩ := search_loop_total netlist ip netlist.length 0 (netlist.length - 1)
      (by omega) (by omega) (by omega)
    have hk3 : k < netlist.length := by omega
    simp only [h, if_false, hk, List.getElem?_eq_getElem hk3]
    exact ⟨_, rfl⟩

theorem filter_loop_total (cfg : Config) (is_chn : Bool) (an : List (Option ns_rr)) :
    ∃ b, filter_loop cfg is_chn an = some b := by
  induction an with
  | nil => exact ⟨false, rfl⟩
  | cons rr rest ih =>
    cases rr with
    | none => exact ⟨false, rfl⟩
    | some rr =>
      unfold filter_loop
      obtain ⟨b, hb⟩ := test_ip_in_list_total rr.rdata cfg.chnroute_list
      by_cases ht : rr.type = ns_t_a
      · simp only [ht, if_true, hb]
        cases b <;> simp only <;> split_ifs <;> first | exact ih | exact ⟨true, rfl⟩
      · simp only [ht, if_false]; exact ih

theorem should_filter_query_total (cfg : Config) (msg : ns_msg) (dns_addr : Nat) :
    ∃ b, should_filter_query cfg msg dns_addr = some b :=
  filter_loop_total cfg _ msg.an


/-! ## The filter table -/

theorem filter_loop_true_iff (cfg : Config) (is_chn : Bool) (an : List (Option ns_rr))
    (hparse : ∀ r ∈ an, r ≠ none) :
    filter_loop cfg is_chn an = some true ↔
      ∃ rr, some rr ∈ an ∧ rr.type = ns_t_a ∧
        ((is_chn = true ∧ test_ip_in_list rr.rdata cfg.chnroute_list = some false) ∨
         (cfg.bidirectional = true ∧ is_chn = false ∧
            test_ip_in_list rr.rdata cfg.chnroute_list = some true)) := by
  induction an with
  | nil => simp [filter_loop]
  | cons r rest ih =>
    have ih1 := ih (fun x hx => hparse x (List.mem_cons_of_mem _ hx))
    cases r with
    | none => exact absurd rfl (hparse none (List.mem_cons_self _ _))
    | some rr =>
      obtain ⟨b, hb⟩ := test_ip_in_list_total rr.rdata cfg.chnroute_list
      unfold filter_loop
      by_cases ht : rr.type = ns_t_a
      · simp only [ht, if_true, hb]
        cases b <;> cases is_chn <;> cases hbi : cfg.bidirectional <;>
          simp [ih1, hb, ht, hbi]
      · simp only [ht, if_false, ih1]
        constructor
        · rintro ⟨x, hx, h⟩
          exact ⟨x, List.mem_cons_of_mem _ hx, h⟩
        · rintro ⟨x, hx, hxt, h⟩
          rcases List.mem_cons.1 hx with h1 | h1
          · cases h1; exact absurd hxt ht
          · exact ⟨x, h1, hxt, h⟩

theorem dns_is_chn_iff (cfg : Config) (dns_addr : Nat) (hfile : cfg.chnroute_file = true)
    (hforeign : 0 < cfg.foreign_dns_server_addrs.length) :
    dns_is_chn cfg dns_addr = true ↔
      ∃ srv ∈ cfg.chn_dns_server_addrs, srv.addr.sin_addr = dns_addr := by
  simp only [dns_is_chn, hfile, hforeign, gt_iff_lt, decide_True, Bool.and_self, if_true,
    List.any_eq_true, beq_iff_eq]
  constructor
  · rintro ⟨x, hx, h⟩; exact ⟨x, hx, h.symm⟩
  · rintro ⟨x, hx, h⟩; exact ⟨x, hx, h.symm⟩


/-- The filter table in terms of the lookup.  With a prefix file configured and a non-empty
foreign pool, for every response whose answer records all parse and every upstream address,
`should_filter_query` returns a value, and it returns true iff for some A record either the
upstream is one of the domestic servers and `test_ip_in_list` returns false for the answer, or
`bidirectional` is on, the upstream is not a domestic server and `test_ip_in_list` returns true
for the answer.  A response without A records is kept. -/
theorem should_filter_query_table (cfg : Config) (msg : ns_msg) (dns_addr : Nat)
    (hfile : cfg.chnroute_file = true)
    (hforeign : 0 < cfg.foreign_dns_server_addrs.length)
    (hparse : ∀ r ∈ msg.an, r ≠ none) :
    (∃ b, should_filter_query cfg msg dns_addr = some b) ∧
    (should_filter_query cfg msg dns_addr = some true ↔
      ∃ rr, some rr ∈ msg.an ∧ rr.type = ns_t_a ∧
        (((∃ srv ∈ cfg.chn_dns_server_addrs, srv.addr.sin_addr = dns_addr) ∧
            test_ip_in_list rr.rdata cfg.chnroute_list = some false) ∨
         (cfg.bidirectional = true ∧
            (¬ ∃ srv ∈ cfg.chn_dns_server_addrs, srv.addr.sin_addr = dns_addr) ∧
            test_ip_in_list rr.rdata cfg.chnroute_list = some true))) ∧
    ((∀ rr, some rr ∈ msg.an → rr.type ≠ ns_t_a) →
      should_filter_query cfg msg dns_addr = some false) := by
  have hiff := filter_loop_true_iff cfg (dns_is_chn cfg dns_addr) msg.an hparse
  have hchn := dns_is_chn_iff cfg dns_addr hfile hforeign
  have hchn2 : dns_is_chn cfg dns_addr = false ↔
      ¬ ∃ srv ∈ cfg.chn_dns_server_addrs, srv.addr.sin_addr = dns_addr := by
    rw [← hchn]; simp
  refine ⟨should_filter_query_total cfg msg dns_addr, ?_, ?_⟩
  · unfold should_filter_query
    rw [hiff, hchn, hchn2]
  · intro hno
    obtain ⟨b, hb⟩ := should_filter_query_total cfg msg dns_addr
    cases b with
    | false => exact hb
    | true =>
      obtain ⟨rr, hrr, ht, _⟩ := hiff.1 hb
      exact absurd ht (hno rr hrr)

/-- Scenario S5 as an instance of `should_filter_query_table`: with `bidirectional` on, the
reply `A = 93.184.216.34` of the foreign upstream is kept and the same reply of the domestic
upstream is dropped. -/
theorem should_filter_query_table_witness :
    (S4_config true).chnroute_file = true ∧
    0 < (S4_config true).foreign_dns_server_addrs.length ∧
    (∀ r ∈ (a_reply 7 (ip4 93 184 216 34)).an, r ≠ none) ∧
    should_filter_query (S4_config true) (a_reply 7 (ip4 93 184 216 34)) S4_foreign.sin_addr
      = some false ∧
    should_filter_query (S4_config true) (a_reply 7 (ip4 93 184 216 34)) S4_domestic.sin_addr
      = some true :=
  ⟨rfl, by decide, by decide, by decide,
    ((should_filter_query_table (S4_config true) (a_reply 7 (ip4 93 184 216 34))
        S4_domestic.sin_addr rfl (by decide) (by decide)).2.1).2
      ⟨⟨ns_t_a, ip4 93 184 216 34⟩, by decide, rfl,
        Or.inl ⟨⟨⟨S4_domestic, 16⟩, by decide, rfl⟩, by decide⟩⟩⟩

/-- With `bidirectional` off and a prefix index in which `test_ip_in_list` finds
`203.0.113.5`, a reply whose only A record is `203.0.113.5` is kept whatever upstream sent
it. -/
theorem should_filter_query_S4_keeps (cfg : Config) (id dns_addr : Nat)
    (hbi : cfg.bidirectional = false)
    (hin : test_ip_in_list (ip4 203 0 113 5) cfg.chnroute_list = some true) :
    should_filter_query cfg (a_reply id (ip4 203 0 113 5)) dns_addr = some false := by
  simp [should_filter_query, a_reply, filter_loop, hin, hbi]

/-- Instance of `should_filter_query_S4_keeps` at the settings of scenario S4, for the foreign
and for the domestic upstream. -/
theorem should_filter_query_S4_keeps_witness :
    (S4_config false).bidirectional = false ∧
    test_ip_in_list (ip4 203 0 113 5) (S4_config false).chnroute_list = some true ∧
    should_filter_query (S4_config false) (a_reply 7 (ip4 203 0 113 5)) S4_foreign.sin_addr
      = some false ∧
    should_filter_query (S4_config false) (a_reply 7 (ip4 203 0 113 5)) S4_domestic.sin_addr
      = some false :=
  ⟨rfl, by decide,
    should_filter_query_S4_keeps (S4_config false) 7 S4_foreign.sin_addr rfl (by decide),
    should_filter_query_S4_keeps (S4_config false) 7 S4_domestic.sin_addr rfl (by decide)⟩

/-- In scenario S4 (`bidirectional` off, the index covers
`203.0.113.0/24`, the upstream `8.8.8.8` is in the foreign pool and not in the domestic pool)
the reply `A = 203.0.113.5` of the foreign upstream is not dropped: `should_filter_query`
returns false, not true. -/
theorem S4_foreign_reply_not_dropped :
    (S4_config false).bidirectional = false ∧
    test_ip_in_list (ip4 203 0 113 5) (S4_config false).chnroute_list = some true ∧
    dns_is_chn (S4_config false) S4_foreign.sin_addr = false ∧
    should_filter_query (S4_config false) (a_reply 7 (ip4 203 0 113 5)) S4_foreign.sin_addr
      ≠ some true := by
  decide


/-! ## The pending table -/

theorem slot_val (id : Nat) : (slot id).val = id &&& 255 := by
  have h : id &&& 255 ≤ 255 := Nat.and_le_right
  simp only [slot]
  omega

theorem slot_eq_iff (a b : Nat) : slot a = slot b ↔ a &&& 255 = b &&& 255 := by
  rw [Fin.ext_iff, slot_val, slot_val]

theorem queue_add_same (queue : Fin 256 → id_addr_t) (e : id_addr_t) :
    queue_add queue e (slot e.id) = e := by
  simp [queue_add]

theorem queue_add_other (queue : Fin 256 → id_addr_t) (e : id_addr_t) (i : Fin 256)
    (h : i ≠ slot e.id) : queue_add queue e i = queue i := by
  simp [queue_add, Function.update_noteq h]

theorem foldl_queue_add_other (later : List id_addr_t) (queue : Fin 256 → id_addr_t)
    (i : Fin 256) (h : ∀ e ∈ later, slot e.id ≠ i) :
    later.foldl queue_add queue i = queue i := by
  induction later generalizing queue with
  | nil => rfl
  | cons e rest ih =>
    rw [List.foldl_cons, ih _ (fun x hx => h x (List.mem_cons_of_mem _ hx))]
    exact queue_add_other queue e i (fun hi => h e (List.mem_cons_self _ _) hi.symm)

/-- Claim C5.  After `queue_add` of `(id, c)` followed by any sequence of `queue_add` calls none
of whose ids has the low byte of `id`, `queue_lookup id` returns the entry holding `id` and
`c`; the later insertions leave slot `id & 0xff` unchanged. -/
theorem queue_lookup_after_add (queue : Fin 256 → id_addr_t) (id : Nat) (c : sockaddr)
    (clen : Nat) (later : List id_addr_t)
    (hlater : ∀ e ∈ later, e.id &&& 255 ≠ id &&& 255) :
    queue_lookup (later.foldl queue_add (queue_add queue ⟨id, some c, clen⟩)) id
        = some ⟨id, some c, clen⟩ ∧
    later.foldl queue_add (queue_add queue ⟨id, some c, clen⟩) (slot id)
        = queue_add queue ⟨id, some c, clen⟩ (slot id) := by
  have h1 : later.foldl queue_add (queue_add queue ⟨id, some c, clen⟩) (slot id)
      = queue_add queue ⟨id, some c, clen⟩ (slot id) :=
    foldl_queue_add_other later _ (slot id)
      (fun e he hs => hlater e he ((slot_eq_iff _ _).1 hs))
  have h2 : queue_add queue ⟨id, some c, clen⟩ (slot id) = ⟨id, some c, clen⟩ :=
    queue_add_same queue ⟨id, some c, clen⟩
  refine ⟨?_, h1⟩
  unfold queue_lookup
  rw [h1, h2]
  simp

/-- Instance of `queue_lookup_after_add`: id `0x1234` inserted into the zeroed table, then ids
`0x0001` and `0xab35`. -/
theorem queue_lookup_after_add_witness :
    (∀ e ∈ [(⟨1, some client_Y, 16⟩ : id_addr_t), ⟨43829, some client_Y, 16⟩],
      e.id &&& 255 ≠ 4660 &&& 255) ∧
    queue_lookup
      ([(⟨1, some client_Y, 16⟩ : id_addr_t), ⟨43829, some client_Y, 16⟩].foldl queue_add
        (queue_add queue_zero ⟨4660, some client_X, 16⟩)) 4660
      = some ⟨4660, some client_X, 16⟩ :=
  ⟨by decide,
    (queue_lookup_after_add queue_zero 4660 client_X 16
      [⟨1, some client_Y, 16⟩, ⟨43829, some client_Y, 16⟩] (by decide)).1⟩

/-- Claim C6.  For ids `id1 ≠ id2` with the same low byte, after `queue_add (id1, c1)` and then
`queue_add (id2, c2)`, `queue_lookup id1` returns `NULL` and `queue_lookup id2` returns the
entry of `c2`. -/
theorem queue_collision (queue : Fin 256 → id_addr_t) (id1 id2 : Nat) (c1 c2 : sockaddr)
    (len1 len2 : Nat) (hne : id1 ≠ id2) (hlow : id1 &&& 255 = id2 &&& 255) :
    queue_lookup (queue_add (queue_add queue ⟨id1, some c1, len1⟩) ⟨id2, some c2, len2⟩) id1
        = none ∧
    queue_lookup (queue_add (queue_add queue ⟨id1, some c1, len1⟩) ⟨id2, some c2, len2⟩) id2
        = some ⟨id2, some c2, len2⟩ := by
  have hs : slot id1 = slot id2 := (slot_eq_iff _ _).2 hlow
  have h2 := queue_add_same (queue_add queue ⟨id1, some c1, len1⟩) ⟨id2, some c2, len2⟩
  simp only at h2
  constructor
  · unfold queue_lookup
    rw [hs, h2]
    simp [Ne.symm hne]
  · unfold queue_lookup
    rw [h2]
    simp

/-- Instances of `queue_collision`: ids `0x1234` / `0x5634` and ids `0x0001` / `0x0101`
(scenario S6). -/
theorem queue_collision_witness :
    ((4660 : Nat) ≠ 22068 ∧ (4660 : Nat) &&& 255 = 22068 &&& 255 ∧
      queue_lookup (queue_add (queue_add queue_zero ⟨4660, some client_X, 16⟩)
        ⟨22068, some client_Y, 16⟩) 4660 = none ∧
      queue_lookup (queue_add (queue_add queue_zero ⟨4660, some client_X, 16⟩)
        ⟨22068, some client_Y, 16⟩) 22068 = some ⟨22068, some client_Y, 16⟩) ∧
    ((1 : Nat) ≠ 257 ∧ (1 : Nat) &&& 255 = 257 &&& 255 ∧
      queue_lookup (queue_add (queue_add queue_zero ⟨1, some client_X, 16⟩)
        ⟨257, some client_Y, 16⟩) 1 = none ∧
      queue_lookup (queue_add (queue_add queue_zero ⟨1, some client_X, 16⟩)
        ⟨257, some client_Y, 16⟩) 257 = some ⟨257, some client_Y, 16⟩) :=
  ⟨⟨by decide, by decide,
      queue_collision queue_zero 4660 22068 client_X client_Y 16 16 (by decide) (by decide)⟩,
    ⟨by decide, by decide,
      queue_collision queue_zero 1 257 client_X client_Y 16 16 (by decide) (by decide)⟩⟩


/-! ## The handlers -/

theorem recvfrom_of_le (dgram : List Nat) (h : dgram.length ≤ BUF_SIZE) :
    recvfrom dgram = dgram := by
  simp [recvfrom, List.take_of_length_le h]

theorem recvfrom_length_pos (dgram : List Nat) (h : 0 < dgram.length) :
    0 < (recvfrom dgram).length := by
  simp only [recvfrom, List.length_take, BUF_SIZE]
  omega

theorem dns_handle_remote_hit (env : Env) (s : State) (dgram : List Nat) (src_addr : sockaddr)
    (msg : ns_msg) (e : id_addr_t) (a : sockaddr) (b : Bool)
    (hlen : 0 < (recvfrom dgram).length)
    (hparse : env.ns_initparse (recvfrom dgram) = some msg)
    (hlook : queue_lookup s.id_addr_queue (msg.id % 65536) = some e)
    (ha : e.addr = some a)
    (hf : should_filter_query env.cfg msg src_addr.sin_addr = some b) :
    dns_handle_remote env s dgram src_addr = some
      { id_addr_queue := Function.update s.id_addr_queue (slot (msg.id % 65536))
          { e with addr := some { a with sa_family := AF_INET } }
        compression_buf := s.compression_buf
        sent := if b then s.sent else
          s.sent ++ [⟨Sock.local_sock, recvfrom dgram, { a with sa_family := AF_INET },
            e.addrlen⟩] } := by
  unfold dns_handle_remote
  simp only [gt_iff_lt, hlen, if_true, hparse, hlook, ha, hf]
  cases b <;> simp


theorem forwarded_send_all (sent : List Sendto) (servers : List dns_server) (buf : List Nat) :
    (sent ++ send_all servers buf).filter (fun p => p.sock == Sock.local_sock)
      = sent.filter (fun p => p.sock == Sock.local_sock) := by
  rw [List.filter_append]
  have : (send_all servers buf).filter (fun p => p.sock == Sock.local_sock) = [] := by
    rw [List.filter_eq_nil_iff]
    intro p hp
    simp only [send_all, List.mem_map] at hp
    obtain ⟨srv, _, rfl⟩ := hp
    simp
  rw [this, List.append_nil]

theorem dns_handle_local_parsed (env : Env) (s s1 : State) (dgram : List Nat)
    (src_addr : sockaddr) (src_addrlen : Nat) (msg : ns_msg)
    (hlen : 0 < (recvfrom dgram).length)
    (hparse : env.ns_initparse (recvfrom dgram) = some msg)
    (h : dns_handle_local env s dgram src_addr src_addrlen = some s1) :
    s1.id_addr_queue = queue_add s.id_addr_queue ⟨msg.id % 65536, some src_addr, src_addrlen⟩ ∧
    forwarded s1 = forwarded s := by
  unfold dns_handle_local at h
  simp only [gt_iff_lt, hlen, if_true, hparse] at h
  split at h
  · split at h
    · exact absurd h (by simp)
    · split at h
      · exact absurd h (by simp)
      · split at h
        · cases h
          exact ⟨rfl, by simp only [forwarded, forwarded_send_all]⟩
        · exact absurd h (by simp)
    · cases h
      exact ⟨rfl, by simp only [forwarded, forwarded_send_all]⟩
  · cases h
    exact ⟨rfl, rfl⟩

theorem dns_handle_local_unparsed (env : Env) (s s1 : State) (dgram : List Nat)
    (src_addr : sockaddr) (src_addrlen : Nat)
    (hno : ¬ (0 < (recvfrom dgram).length ∧ ∃ msg, env.ns_initparse (recvfrom dgram) = some msg))
    (h : dns_handle_local env s dgram src_addr src_addrlen = some s1) :
    s1 = s := by
  unfold dns_handle_local at h
  by_cases hlen : 0 < (recvfrom dgram).length
  · cases hp : env.ns_initparse (recvfrom dgram) with
    | none =>
      simp only [gt_iff_lt, hlen, if_true, hp] at h
      cases h; rfl
    | some msg => exact absurd ⟨hlen, msg, hp⟩ hno
  · simp only [gt_iff_lt, hlen, if_false] at h
    cases h; rfl


theorem pending_for_queue_add (queue : Fin 256 → id_addr_t) (id : Nat) (c : sockaddr)
    (clen : Nat) : pending_for (queue_add queue ⟨id, some c, clen⟩) id c clen := by
  have h := queue_add_same queue ⟨id, some c, clen⟩
  simp only at h
  unfold pending_for
  rw [h]
  exact ⟨rfl, rfl, c, rfl, rfl, rfl⟩

theorem queue_lookup_some (queue : Fin 256 → id_addr_t) (id : Nat) (e : id_addr_t)
    (h : queue_lookup queue id = some e) : e = queue (slot id) ∧ e.id = id := by
  unfold queue_lookup at h
  split at h
  · cases h; exact ⟨rfl, by assumption⟩
  · exact absurd h (by simp)

theorem dns_handle_remote_pending (env : Env) (s s1 : State) (dgram : List Nat)
    (src_addr : sockaddr) (id : Nat) (c : sockaddr) (clen : Nat)
    (hp : pending_for s.id_addr_queue id c clen)
    (h : dns_handle_remote env s dgram src_addr = some s1) :
    pending_for s1.id_addr_queue id c clen := by
  by_cases hlen : 0 < (recvfrom dgram).length
  · cases hmsg : env.ns_initparse (recvfrom dgram) with
    | none =>
      simp only [dns_handle_remote, gt_iff_lt, hlen, if_true, hmsg] at h
      cases h; exact hp
    | some msg =>
      cases he : queue_lookup s.id_addr_queue (msg.id % 65536) with
      | none =>
        simp only [dns_handle_remote, gt_iff_lt, hlen, if_true, hmsg, he] at h
        cases h; exact hp
      | some e =>
        obtain ⟨he1, he2⟩ := queue_lookup_some _ _ _ he
        cases ha : e.addr with
        | none =>
          simp only [dns_handle_remote, gt_iff_lt, hlen, if_true, hmsg, he, ha] at h
          exact absurd h (by simp)
        | some a =>
          obtain ⟨b, hb⟩ := should_filter_query_total env.cfg msg src_addr.sin_addr
          rw [dns_handle_remote_hit env s dgram src_addr msg e a b hlen hmsg he ha hb] at h
          cases h
          obtain ⟨p1, p2, a0, p3, p4, p5⟩ := hp
          unfold pending_for
          simp only
          by_cases hs : slot id = slot (msg.id % 65536)
          · rw [hs, Function.update_same]
            rw [hs] at p1 p2 p3
            rw [← he1] at p1 p2 p3
            rw [ha] at p3
            cases p3
            exact ⟨p1, p2, _, rfl, p4, p5⟩
          · rw [Function.update_noteq hs]
            exact ⟨p1, p2, a0, p3, p4, p5⟩
  · simp only [dns_handle_remote, gt_iff_lt, hlen, if_false] at h
    cases h; exact hp

theorem step_pending (env : Env) (s s1 : State) (e : Event) (id : Nat) (c : sockaddr)
    (clen : Nat) (hp : pending_for s.id_addr_queue id c clen)
    (hclash : no_slot_clash env id e) (h : step env s e = some s1) :
    pending_for s1.id_addr_queue id c clen := by
  cases e with
  | upstream dgram src_addr => exact dns_handle_remote_pending env s s1 dgram src_addr id c clen hp h
  | client dgram src_addr src_addrlen =>
    simp only [step] at h
    by_cases hq : 0 < (recvfrom dgram).length ∧
        ∃ msg, env.ns_initparse (recvfrom dgram) = some msg
    · obtain ⟨hlen, msg, hmsg⟩ := hq
      obtain ⟨h1, _⟩ := dns_handle_local_parsed env s s1 dgram src_addr src_addrlen msg hlen hmsg h
      have hne : slot id ≠ slot (msg.id % 65536) := by
        intro hs
        exact hclash msg hmsg ((slot_eq_iff _ _).1 hs).symm
      unfold pending_for
      rw [h1, queue_add_other _ _ _ hne]
      exact hp
    · rw [dns_handle_local_unparsed env s s1 dgram src_addr src_addrlen hq h]
      exact hp

theorem run_pending (env : Env) (events : List Event) (id : Nat) (c : sockaddr) (clen : Nat) :
    ∀ (s s1 : State), pending_for s.id_addr_queue id c clen →
      (∀ e ∈ events, no_slot_clash env id e) → run env s events = some s1 →
      pending_for s1.id_addr_queue id c clen := by
  induction events with
  | nil => intro s s1 hp _ h; simp only [run] at h; cases h; exact hp
  | cons e rest ih =>
    intro s s1 hp hclash h
    simp only [run] at h
    split at h
    · exact absurd h (by simp)
    · rename_i s0 hs0
      exact ih s0 s1 (step_pending env s s0 e id c clen hp
        (hclash e (List.mem_cons_self _ _)) hs0)
        (fun x hx => hclash x (List.mem_cons_of_mem _ hx)) h

theorem dns_handle_remote_pending_hit (env : Env) (s : State) (dgram : List Nat)
    (src_addr : sockaddr) (msg : ns_msg) (c : sockaddr) (clen : Nat) (b : Bool)
    (hp : pending_for s.id_addr_queue (msg.id % 65536) c clen)
    (hlen : 0 < (recvfrom dgram).length)
    (hparse : env.ns_initparse (recvfrom dgram) = some msg)
    (hf : should_filter_query env.cfg msg src_addr.sin_addr = some b) :
    ∃ s1, dns_handle_remote env s dgram src_addr = some s1 ∧
      pending_for s1.id_addr_queue (msg.id % 65536) c clen ∧
      s1.sent = if b then s.sent else
        s.sent ++ [⟨Sock.local_sock, recvfrom dgram, { c with sa_family := AF_INET }, clen⟩] := by
  obtain ⟨p1, p2, a, p3, p4, p5⟩ := hp
  have hlook : queue_lookup s.id_addr_queue (msg.id % 65536)
      = some (s.id_addr_queue (slot (msg.id % 65536))) := by
    simp [queue_lookup, p1]
  have hhit := dns_handle_remote_hit env s dgram src_addr msg _ a b hlen hparse hlook p3 hf
  refine ⟨_, hhit, dns_handle_remote_pending env s _ dgram src_addr _ c clen
    ⟨p1, p2, a, p3, p4, p5⟩ hhit, ?_⟩
  have haddr : ({ a with sa_family := AF_INET } : sockaddr) = { c with sa_family := AF_INET } := by
    cases a; cases c; simp only at p4 p5; simp [p4, p5]
  simp only [haddr, p2]


/-- The round trip for responses of at most `BUF_SIZE` bytes.  Let the client datagram `Q`
parse, with id `i = q.id` and source address `c`,
and let `dns_handle_local` handle it.  After any events among which no client query is stored
in slot `i & 0xff`, `dns_handle_remote` on a response `R` with id `i` that passes the filter
makes exactly one call of `sendto`: on the local socket, to the address of `c` with the family
set to `AF_INET`, with the bytes of `R` as payload. -/
theorem query_response_round_trip (env : Env) (s s1 s2 : State) (Q R : List Nat)
    (c usrc : sockaddr) (clen : Nat) (q r : ns_msg) (between : List Event)
    (hQlen : 0 < Q.length)
    (hQ : env.ns_initparse (recvfrom Q) = some q)
    (h1 : dns_handle_local env s Q c clen = some s1)
    (hbetween : ∀ e ∈ between, no_slot_clash env (q.id % 65536) e)
    (h2 : run env s1 between = some s2)
    (hRlen : 0 < R.length) (hRmax : R.length ≤ BUF_SIZE)
    (hR : env.ns_initparse (recvfrom R) = some r)
    (hid : r.id % 65536 = q.id % 65536)
    (hpass : should_filter_query env.cfg r usrc.sin_addr = some false) :
    ∃ s3, dns_handle_remote env s2 R usrc = some s3 ∧
      s3.sent = s2.sent ++ [⟨Sock.local_sock, R, { c with sa_family := AF_INET }, clen⟩] := by
  obtain ⟨hq1, _⟩ := dns_handle_local_parsed env s s1 Q c clen q
    (recvfrom_length_pos Q hQlen) hQ h1
  have hp1 : pending_for s1.id_addr_queue (q.id % 65536) c clen := by
    rw [hq1]; exact pending_for_queue_add _ _ _ _
  have hp2 := run_pending env between (q.id % 65536) c clen s1 s2 hp1 hbetween h2
  rw [← hid] at hp2
  obtain ⟨s3, hs3, _, hsent⟩ := dns_handle_remote_pending_hit env s2 R usrc r c clen false hp2
    (recvfrom_length_pos R hRlen) hR hpass
  refine ⟨s3, hs3, ?_⟩
  rw [hsent, recvfrom_of_le R hRmax]
  simp

set_option maxRecDepth 100000 in
/-- Instance of `query_response_round_trip` in scenario S3: client X asks for `example.com`,
the foreign upstream answers, the answer reaches X unchanged. -/
theorem query_response_round_trip_witness :
    ∃ s1 s3,
      dns_handle_local (S3_env false) State.init (example_query 18 52) client_X 16 = some s1 ∧
      dns_handle_remote (S3_env false) s1 (example_reply 18 52 93 184 216 34) S4_foreign
        = some s3 ∧
      s3.sent = s1.sent ++ [⟨Sock.local_sock, example_reply 18 52 93 184 216 34,
        { client_X with sa_family := AF_INET }, 16⟩] := by
  have h1 : ∃ s1, dns_handle_local (S3_env false) State.init (example_query 18 52) client_X 16
      = some s1 :=
    Option.isSome_iff_exists.1 (by decide)
  obtain ⟨s1, hs1⟩ := h1
  obtain ⟨s3, hs3, hsent⟩ := query_response_round_trip (S3_env false) State.init s1 s1
    (example_query 18 52) (example_reply 18 52 93 184 216 34) client_X S4_foreign 16
    ⟨4660, []⟩ (a_reply 4660 (ip4 93 184 216 34)) []
    (by decide) (by decide) hs1 (by simp) rfl (by decide) (by decide) (by decide) rfl
    (by decide)
  exact ⟨s1, s3, hs1, hs3, hsent⟩


theorem filter_loop_off (cfg : Config) (hlist : cfg.chnroute_list = [])
    (an : List (Option ns_rr)) : filter_loop cfg false an = some false := by
  induction an with
  | nil => rfl
  | cons r rest ih =>
    cases r with
    | none => rfl
    | some rr =>
      unfold filter_loop
      have ht : test_ip_in_list rr.rdata cfg.chnroute_list = some false := by
        rw [hlist]; rfl
      by_cases h : rr.type = ns_t_a
      · simp [h, ht, ih]
      · simp [h, ih]

/-- Claim C8.  When no prefix file is configured (`chnroute_file` is unset and the prefix index
is empty), `should_filter_query` returns false for every response and every upstream address,
whatever the value of `bidirectional`; hence `dns_handle_remote` forwards every response for
which `queue_lookup` finds a pending entry. -/
theorem filter_off_forwards_all (env : Env)
    (hfile : env.cfg.chnroute_file = false) (hlist : env.cfg.chnroute_list = []) :
    (∀ (msg : ns_msg) (dns_addr : Nat),
      should_filter_query env.cfg msg dns_addr = some false) ∧
    (∀ (s : State) (dgram : List Nat) (src_addr : sockaddr) (msg : ns_msg) (e : id_addr_t)
        (a : sockaddr),
      0 < (recvfrom dgram).length →
      env.ns_initparse (recvfrom dgram) = some msg →
      queue_lookup s.id_addr_queue (msg.id % 65536) = some e →
      e.addr = some a →
      ∃ s1, dns_handle_remote env s dgram src_addr = some s1 ∧
        s1.sent = s.sent ++ [⟨Sock.local_sock, recvfrom dgram,
          { a with sa_family := AF_INET }, e.addrlen⟩]) := by
  have hoff : ∀ (msg : ns_msg) (dns_addr : Nat),
      should_filter_query env.cfg msg dns_addr = some false := by
    intro msg dns_addr
    have hchn : dns_is_chn env.cfg dns_addr = false := by simp [dns_is_chn, hfile]
    unfold should_filter_query
    rw [hchn]
    exact filter_loop_off env.cfg hlist msg.an
  refine ⟨hoff, ?_⟩
  intro s dgram src_addr msg e a hlen hparse hlook ha
  exact ⟨_, dns_handle_remote_hit env s dgram src_addr msg e a false hlen hparse hlook ha
    (hoff msg src_addr.sin_addr), by simp⟩

/-- Instance of `filter_off_forwards_all` in scenario S3, with `bidirectional` on: the
response `A = 203.0.113.5` of the upstream `203.0.113.1` is not filtered. -/
theorem filter_off_forwards_all_witness :
    (S3_env true).cfg.chnroute_file = false ∧ (S3_env true).cfg.chnroute_list = [] ∧
    should_filter_query (S3_env true).cfg (a_reply 4660 (ip4 203 0 113 5)) S4_domestic.sin_addr
      = some false ∧
    should_filter_query (S3_env false).cfg (a_reply 4660 (ip4 93 184 216 34)) S4_foreign.sin_addr
      = some false :=
  ⟨rfl, rfl,
    (filter_off_forwards_all (S3_env true) rfl rfl).1 (a_reply 4660 (ip4 203 0 113 5))
      S4_domestic.sin_addr,
    (filter_off_forwards_all (S3_env false) rfl rfl).1 (a_reply 4660 (ip4 93 184 216 34))
      S4_foreign.sin_addr⟩

/-! ## Defects of the prefix index -/

/-- Claim C1, at the failing input.  The index of scenario S1 is what `parse_chnroute` builds
from the lines `8.8.8.0/24` and `1.0.0.0/8`; it is sorted, its networks are distinct and have
no host bits.  For `8.8.8.8` the reference definition says true (the greatest network below
the address is `8.8.8.0/24`, which covers it), but `test_ip_in_list` returns false: the loop
stops with `l = 0` and the test is made against `1.0.0.0/8`.  The other three lookups of S1
agree with the reference. -/
theorem test_ip_in_list_S1 :
    parse_chnroute decimal_libc (some ["8.8.8.0/24\n".toList, "1.0.0.0/8\n".toList])
      = some (some S1_index) ∧
    contains_spec (ip4 8 8 8 8) S1_index = true ∧
    search_loop S1_index (ip4 8 8 8 8) 2 0 1 = some 0 ∧
    test_ip_in_list (ip4 8 8 8 8) S1_index = some false ∧
    test_ip_in_list (ip4 1 2 3 4) S1_index = some true ∧
    test_ip_in_list (ip4 8 8 9 1) S1_index = some false ∧
    test_ip_in_list (ip4 9 9 9 9) S1_index = some false := by
  decide

/-- Claim C9, at the failing input.  For the line `1.2.3.4`, which has no `/len`,
`parse_chnroute` stores the mask `UINT32_MAX`, and the single-entry index it builds contains
`5.6.7.8`, an address different from the line's. -/
theorem parse_chnroute_no_len :
    parse_chnroute decimal_libc (some ["1.2.3.4\n".toList])
      = some (some [⟨ip4 1 2 3 4, UINT32_MAX⟩]) ∧
    test_ip_in_list (ip4 5 6 7 8) [⟨ip4 1 2 3 4, UINT32_MAX⟩] = some true ∧
    ip4 5 6 7 8 ≠ ip4 1 2 3 4 := by
  decide

/-- Claim C10, at the failing input.  For the prefix length `0` the source evaluates
`1 << 32` on an `int`, which C leaves undefined: the embedding has no mask for the line
`0.0.0.0/0`.  With the shift count reduced modulo 32, as x86 does, the value is `1` and the
mask stored is `0`; the entry `0.0.0.0` with mask `0` does not contain `1.2.3.4`. -/
theorem parse_chnroute_len_zero :
    host_mask 0 = none ∧
    parse_chnroute decimal_libc (some ["0.0.0.0/0\n".toList]) = none ∧
    test_ip_in_list (ip4 1 2 3 4) [⟨ip4 0 0 0 0, 0⟩] = some false := by
  decide


/-! ## What the prefix search computes -/

theorem cmp_net_mask_neg_iff (ip m : Nat) (e : net_mask_t) :
    cmp_net_mask ⟨ip, m⟩ e = -1 ↔ ip < e.net := by
  unfold cmp_net_mask
  simp only
  split_ifs with h1 h2
  · constructor
    · intro h; exact absurd h (by decide)
    · intro h; omega
  · constructor
    · intro h; exact absurd h (by decide)
    · intro h; omega
  · constructor
    · intro _; omega
    · intro _; rfl

theorem search_loop_same (nets : List net_mask_t) (ip fuel l k : Nat)
    (h : search_loop nets ip fuel l l = some k) : k = l := by
  cases fuel with
  | zero => exact absurd h (by simp [search_loop])
  | succ fuel =>
    simp only [search_loop, if_true, Option.some.injEq] at h
    exact h.symm

theorem net_at_eq (nets : List net_mask_t) (i : Nat) (e : net_mask_t)
    (h : nets[i]? = some e) : net_at nets i = e.net := by
  simp [net_at, h]

theorem search_loop_result (nets : List net_mask_t) (ip : Nat) :
    ∀ (fuel l r k : Nat), l < r → r < nets.length →
      (l = 0 ∨ net_at nets l ≤ ip) →
      (r + 1 = nets.length ∨ ip < net_at nets r) →
      search_loop nets ip fuel l r = some k →
      (k = 0 ∧ ip < net_at nets 0) ∨
      (k + 1 < nets.length ∧ net_at nets k ≤ ip ∧
        (k + 2 = nets.length ∨ ip < net_at nets (k + 1))) := by
  intro fuel
  induction fuel with
  | zero => intro l r k _ _ _ _ h; exact absurd h (by simp [search_loop])
  | succ fuel ih =>
    intro l r k hlr hr hl hrr h
    have hne : l ≠ r := by omega
    unfold search_loop at h
    simp only [hne, if_false] at h
    generalize hmdef : (l + r) / 2 = m at h
    have hm : m < nets.length := by omega
    have hget : nets[m]? = some (nets[m]) := List.getElem?_eq_getElem hm
    have hat := net_at_eq nets _ _ hget
    rw [hget] at h
    simp only [cmp_net_mask_neg_iff, ← hat] at h
    by_cases hcmp : ip < net_at nets m
    · have hrm : r ≠ m := by omega
      simp only [hcmp, if_true, hrm, ne_eq, not_false_eq_true] at h
      by_cases hlm : l = m
      · subst hlm
        have hk := search_loop_same nets ip fuel l k h
        subst hk
        rcases hl with h0 | h0
        · subst h0; exact Or.inl ⟨rfl, hcmp⟩
        · omega
      · exact ih l m k (by omega) hm hl (Or.inr hcmp) h
    · simp only [hcmp, if_false] at h
      by_cases hlm : l = m
      · subst hlm
        simp only [ne_eq, not_true_eq_false, if_false, Option.some.injEq] at h
        subst h
        have hr1 : r = l + 1 := by omega
        subst hr1
        right
        refine ⟨hr, by omega, ?_⟩
        rcases hrr with h0 | h0
        · left; omega
        · right; exact h0
      · simp only [ne_eq, hlm, not_false_eq_true, if_true] at h
        exact ih m r k (by omega) hr (Or.inr (by omega)) hrr h


theorem greatest_le_none_iff (a : Nat) (l : List net_mask_t) :
    greatest_le a l = none ↔ ∀ x ∈ l, a < x.net := by
  induction l with
  | nil => simp [greatest_le]
  | cons e rest ih =>
    unfold greatest_le
    cases hg : greatest_le a rest with
    | none =>
      have hrest := ih.1 hg
      simp only [List.mem_cons, forall_eq_or_imp]
      by_cases he : e.net ≤ a
      · simp only [he, if_true]
        constructor
        · intro h; exact absurd h (by simp)
        · intro h; omega
      · simp only [he, if_false, true_iff]
        exact ⟨by omega, hrest⟩
    | some b =>
      have hb : ¬ ∀ x ∈ rest, a < x.net := fun h => by
        rw [ih.2 h] at hg; exact absurd hg (by simp)
      simp only [List.mem_cons, forall_eq_or_imp]
      constructor
      · intro h; split_ifs at h
      · intro h; exact absurd h.2 hb

theorem greatest_le_some (a : Nat) (l : List net_mask_t) :
    ∀ e, greatest_le a l = some e →
      e ∈ l ∧ e.net ≤ a ∧ ∀ x ∈ l, x.net ≤ a → x.net ≤ e.net := by
  induction l with
  | nil => intro e h; exact absurd h (by simp [greatest_le])
  | cons e0 rest ih =>
    intro e h
    unfold greatest_le at h
    cases hg : greatest_le a rest with
    | none =>
      have hrest := (greatest_le_none_iff a rest).1 hg
      simp only [hg] at h
      split_ifs at h with he
      cases h
      refine ⟨List.mem_cons_self _ _, he, ?_⟩
      intro x hx hxa
      rcases List.mem_cons.1 hx with h1 | h1
      · rw [h1]
      · have := hrest x h1; omega
    | some b =>
      obtain ⟨hb1, hb2, hb3⟩ := ih b hg
      simp only [hg] at h
      split_ifs at h with he
      · cases h
        refine ⟨List.mem_cons_self _ _, he.1, ?_⟩
        intro x hx hxa
        rcases List.mem_cons.1 hx with h1 | h1
        · rw [h1]
        · have := hb3 x h1 hxa; omega
      · cases h
        refine ⟨List.mem_cons_of_mem _ hb1, hb2, ?_⟩
        intro x hx hxa
        rcases List.mem_cons.1 hx with h1 | h1
        · rw [h1] at hxa ⊢
          by_cases h2 : e0.net ≤ a
          · have : ¬ e.net < e0.net := fun h3 => he ⟨h2, h3⟩
            omega
          · omega
        · exact hb3 x h1 hxa

theorem net_test_eq_covers (a : Nat) (e : net_mask_t) : net_test a e = covers e a := by
  unfold net_test covers
  rw [Nat.xor_comm]
  by_cases h : (a ^^^ e.net) &&& (UINT32_MAX ^^^ e.mask) = 0
  · simp [h]
  · simp [h]

theorem net_test_true_le (a : Nat) (e : net_mask_t) (hwf : e.net &&& e.mask = 0)
    (hlt : e.net < 2 ^ 32) (h : net_test a e = true) : e.net ≤ a := by
  have h0 : (e.net ^^^ a) &&& (UINT32_MAX ^^^ e.mask) = 0 := by
    unfold net_test at h
    by_contra hc
    simp [hc] at h
  have hand : e.net &&& a = e.net := by
    apply Nat.eq_of_testBit_eq
    intro i
    rw [Nat.testBit_and]
    cases hn : e.net.testBit i with
    | false => rfl
    | true =>
      have hi : i < 32 := by
        by_contra hc
        have h2 : e.net < 2 ^ i := lt_of_lt_of_le hlt (Nat.pow_le_pow_right (by decide) (by omega))
        rw [Nat.testBit_lt_two_pow h2] at hn
        exact absurd hn (by simp)
      have hm : e.mask.testBit i = false := by
        have h1 : (e.net &&& e.mask).testBit i = false := by rw [hwf]; exact Nat.zero_testBit _
        rw [Nat.testBit_and, hn] at h1
        simpa using h1
      have hx : ((e.net ^^^ a) &&& (UINT32_MAX ^^^ e.mask)).testBit i = false := by
        rw [h0]; exact Nat.zero_testBit _
      have hu : UINT32_MAX = 2 ^ 32 - 1 := by decide
      rw [Nat.testBit_and, Nat.testBit_xor, Nat.testBit_xor, hu, Nat.testBit_two_pow_sub_one,
        hn, hm] at hx
      simp only [hi, decide_True] at hx
      revert hx
      cases a.testBit i <;> simp
  calc e.net = e.net &&& a := hand.symm
    _ ≤ a := Nat.and_le_right

theorem test_ip_in_list_at (a : Nat) (nets : List net_mask_t) (hne : nets.length ≠ 0) :
    ∃ k e, search_loop nets a nets.length 0 (nets.length - 1) = some k ∧
      nets[k]? = some e ∧ test_ip_in_list a nets = some (net_test a e) := by
  obtain ⟨k, hk, _, hk2⟩ := search_loop_total nets a nets.length 0 (nets.length - 1)
    (by omega) (by omega) (by omega)
  have hk3 : k < nets.length := by omega
  refine ⟨k, nets[k], hk, List.getElem?_eq_getElem hk3, ?_⟩
  unfold test_ip_in_list
  simp only [hne, if_false, hk, List.getElem?_eq_getElem hk3]

theorem sorted_net_at (nets : List net_mask_t)
    (hsorted : nets.Pairwise (fun x y => x.net < y.net)) (i j : Nat) (hij : i < j)
    (hj : j < nets.length) : net_at nets i < net_at nets j := by
  have hi : i < nets.length := by omega
  rw [net_at_eq nets i _ (List.getElem?_eq_getElem hi),
    net_at_eq nets j _ (List.getElem?_eq_getElem hj)]
  exact (List.pairwise_iff_getElem.1 hsorted) i j hi hj hij


/-- On the empty index and on an index with one well-formed entry `test_ip_in_list` agrees with
the reference definition. -/
theorem test_ip_in_list_single (a : Nat) (e : net_mask_t) (hwf : e.net &&& e.mask = 0)
    (hlt : e.net < 2 ^ 32) :
    test_ip_in_list a [] = some (contains_spec a []) ∧
    test_ip_in_list a [e] = some (contains_spec a [e]) := by
  refine ⟨rfl, ?_⟩
  have h1 : test_ip_in_list a [e] = some (net_test a e) := by
    simp [test_ip_in_list, search_loop]
  rw [h1]
  congr 1
  by_cases hle : e.net ≤ a
  · simp [contains_spec, greatest_le, hle, net_test_eq_covers]
  · have hf : net_test a e = false := by
      cases ht : net_test a e with
      | false => rfl
      | true => exact absurd (net_test_true_le a e hwf hlt ht) hle
    simp [contains_spec, greatest_le, hle, hf]

/-- On a sorted index of two or more well-formed entries with distinct networks,
`test_ip_in_list` computes the reference definition of the index without its last entry: the
last entry is never examined. -/
theorem test_ip_in_list_ignores_last (a : Nat) (init : List net_mask_t) (last : net_mask_t)
    (hne : init ≠ [])
    (hsorted : (init ++ [last]).Pairwise (fun x y => x.net < y.net))
    (hwf : ∀ e ∈ init, e.net &&& e.mask = 0 ∧ e.net < 2 ^ 32) :
    test_ip_in_list a (init ++ [last]) = some (contains_spec a init) := by
  have hpos : 0 < init.length := List.length_pos.2 hne
  have hlen : (init ++ [last]).length = init.length + 1 := by simp
  obtain ⟨k, e, hk, hke, htest⟩ := test_ip_in_list_at a (init ++ [last]) (by omega)
  have hinit : ∀ j, j < init.length → (init ++ [last])[j]? = init[j]? :=
    fun j hj => List.getElem?_append_left hj
  have hsort := sorted_net_at (init ++ [last]) hsorted
  have hmem : ∀ x ∈ init, ∃ j, j < init.length ∧ net_at (init ++ [last]) j = x.net ∧
      init[j]? = some x := by
    intro x hx
    obtain ⟨j, hj⟩ := List.mem_iff_getElem?.1 hx
    have hj1 : j < init.length := (List.getElem?_eq_some.1 hj).1
    exact ⟨j, hj1, net_at_eq _ _ _ ((hinit j hj1).trans hj), hj⟩
  rw [htest]
  congr 1
  rcases search_loop_result (init ++ [last]) a _ 0 _ k (by omega) (by omega) (Or.inl rfl)
    (Or.inl (by omega)) hk with ⟨hk0, hlt0⟩ | ⟨hk1, hkle, hnext⟩
  · subst hk0
    have he : init[0]? = some e := by rw [← hinit 0 hpos]; exact hke
    have heinit : e ∈ init := List.mem_iff_getElem?.2 ⟨0, he⟩
    have hat0 := net_at_eq _ _ _ hke
    have hf : net_test a e = false := by
      cases ht : net_test a e with
      | false => rfl
      | true =>
        have := net_test_true_le a e (hwf e heinit).1 (hwf e heinit).2 ht
        omega
    have hnone : greatest_le a init = none := by
      rw [greatest_le_none_iff]
      intro x hx
      obtain ⟨j, hj1, hj2, _⟩ := hmem x hx
      rcases Nat.eq_zero_or_pos j with h0 | h0
      · rw [h0] at hj2; omega
      · have := hsort 0 j h0 (by omega); omega
    simp [contains_spec, hnone, hf]
  · have hk2 : k < init.length := by omega
    have he : init[k]? = some e := by rw [← hinit k hk2]; exact hke
    have heinit : e ∈ init := List.mem_iff_getElem?.2 ⟨k, he⟩
    have hatk := net_at_eq _ _ _ hke
    cases hg : greatest_le a init with
    | none =>
      have := (greatest_le_none_iff a init).1 hg e heinit
      omega
    | some b =>
      obtain ⟨hb1, hb2, hb3⟩ := greatest_le_some a init b hg
      obtain ⟨j, hj1, hj2, hj3⟩ := hmem b hb1
      have hkb := hb3 e heinit (by omega)
      have hjk : j = k := by
        rcases Nat.lt_trichotomy j k with h1 | h1 | h1
        · have := hsort j k h1 (by omega); omega
        · exact h1
        · rcases hnext with h2 | h2
          · omega
          · rcases Nat.eq_or_lt_of_le (Nat.succ_le_of_lt h1) with h3 | h3
            · rw [← h3] at hj2; simp only [Nat.succ_eq_add_one] at hj2; omega
            · have := hsort (k + 1) j h3 (by omega); omega
      rw [hjk, he] at hj3
      cases hj3
      simp [contains_spec, hg, net_test_eq_covers]


/-! ## Masks built by `parse_chnroute` -/

theorem xor_and_mask_eq_zero_iff (n a k : Nat) (hk : k ≤ 32) (hn : n < 2 ^ 32)
    (ha : a < 2 ^ 32) :
    (n ^^^ a) &&& (UINT32_MAX ^^^ (2 ^ k - 1)) = 0 ↔ a / 2 ^ k = n / 2 ^ k := by
  have hu : UINT32_MAX = 2 ^ 32 - 1 := by decide
  rw [hu]
  have hbit : ∀ x, x < 2 ^ 32 → ∀ i, 32 ≤ i → x.testBit i = false := by
    intro x hx i hi
    exact Nat.testBit_lt_two_pow (lt_of_lt_of_le hx (Nat.pow_le_pow_right (by decide) hi))
  constructor
  · intro h
    apply Nat.eq_of_testBit_eq
    intro j
    rw [← Nat.shiftRight_eq_div_pow, ← Nat.shiftRight_eq_div_pow, Nat.testBit_shiftRight,
      Nat.testBit_shiftRight]
    by_cases hj : k + j < 32
    · have h1 : ((n ^^^ a) &&& ((2 ^ 32 - 1) ^^^ (2 ^ k - 1))).testBit (k + j) = false := by
        rw [h]; exact Nat.zero_testBit _
      rw [Nat.testBit_and, Nat.testBit_xor, Nat.testBit_xor, Nat.testBit_two_pow_sub_one,
        Nat.testBit_two_pow_sub_one] at h1
      have h2 : ¬ (k + j < k) := by omega
      simp only [hj, h2, decide_True, decide_False] at h1
      revert h1
      cases n.testBit (k + j) <;> cases a.testBit (k + j) <;> simp
    · rw [hbit n hn _ (by omega), hbit a ha _ (by omega)]
  · intro h
    apply Nat.eq_of_testBit_eq
    intro i
    rw [Nat.zero_testBit, Nat.testBit_and, Nat.testBit_xor, Nat.testBit_xor,
      Nat.testBit_two_pow_sub_one, Nat.testBit_two_pow_sub_one]
    by_cases h1 : i < k
    · have h2 : i < 32 := by omega
      simp [h1, h2]
    · by_cases h2 : i < 32
      · have h3 : (a / 2 ^ k).testBit (i - k) = (n / 2 ^ k).testBit (i - k) := by rw [h]
        rw [← Nat.shiftRight_eq_div_pow, ← Nat.shiftRight_eq_div_pow, Nat.testBit_shiftRight,
          Nat.testBit_shiftRight] at h3
        have h4 : k + (i - k) = i := by omega
        rw [h4] at h3
        simp [h3]
      · simp [h1, h2]

theorem test_ip_in_list_one (a : Nat) (e : net_mask_t) :
    test_ip_in_list a [e] = some (net_test a e) := by
  simp [test_ip_in_list, search_loop]

/-- For a line without `/` the source stores the mask `UINT32_MAX`, and the index made of that
entry contains every address. -/
theorem parse_line_no_len (L : Libc) (line : List Char) (n : Nat)
    (hno : '/' ∉ cut_at '\n' (cut_at '\r' line))
    (hn : L.inet_aton (cut_at '\n' (cut_at '\r' line)) = some n) :
    parse_line L line = some (some ⟨n, UINT32_MAX⟩) ∧
    ∀ a, test_ip_in_list a [⟨n, UINT32_MAX⟩] = some true := by
  constructor
  · have hcut : cut_at '/' (cut_at '\n' (cut_at '\r' line)) = cut_at '\n' (cut_at '\r' line) := by
      unfold cut_at at hno ⊢
      rw [List.takeWhile_eq_self_iff]
      intro x hx
      have : x ≠ '/' := fun h => hno (h ▸ hx)
      simpa using this
    simp only [parse_line, hno, if_false, hcut, hn]
  · intro a
    rw [test_ip_in_list_one]
    simp [net_test]

theorem host_mask_of_len (len : Nat) (h1 : 1 ≤ len) (h32 : len ≤ 32) :
    host_mask (len : Int) = some (2 ^ (32 - len) - 1) := by
  interval_cases len <;> rfl

/-- For a line `addr/len` with `1 ≤ len ≤ 32` the source stores the mask
`(1 << (32 - len)) - 1`, and the index made of that entry contains exactly the addresses that
agree with the network on their top `len` bits. -/
theorem parse_line_len (L : Libc) (line : List Char) (n len : Nat)
    (hslash : '/' ∈ cut_at '\n' (cut_at '\r' line))
    (hn : L.inet_aton (cut_at '/' (cut_at '\n' (cut_at '\r' line))) = some n)
    (hlen : L.atoi (after '/' (cut_at '\n' (cut_at '\r' line))) = (len : Int))
    (h1 : 1 ≤ len) (h32 : len ≤ 32) (hn32 : n < 2 ^ 32) :
    parse_line L line = some (some ⟨n, 2 ^ (32 - len) - 1⟩) ∧
    ∀ a, a < 2 ^ 32 →
      test_ip_in_list a [⟨n, 2 ^ (32 - len) - 1⟩]
        = some (decide (a / 2 ^ (32 - len) = n / 2 ^ (32 - len))) := by
  constructor
  · simp only [parse_line, hslash, if_true, hlen, host_mask_of_len len h1 h32, hn]
  · intro a ha
    rw [test_ip_in_list_one]
    congr 1
    have hiff := xor_and_mask_eq_zero_iff n a (32 - len) (by omega) hn32 ha
    unfold net_test
    by_cases h : a / 2 ^ (32 - len) = n / 2 ^ (32 - len)
    · rw [if_neg (not_not.2 (hiff.2 h))]
      simp [h]
    · rw [if_pos (fun hc => h (hiff.1 hc))]
      simp [h]


/-! ## Termination and memory safety of the question walk -/

theorem name_walk_total (global_buf : List Nat) (len : Nat) (hlen : len ≤ global_buf.length) :
    ∀ (fuel off : Nat), len - off < fuel →
      ∃ ended off1, name_walk global_buf len fuel off = some (ended, off1) ∧
        (ended = true → off < off1 ∧ off1 ≤ len - 4) := by
  intro fuel
  induction fuel with
  | zero => intro off h; omega
  | succ fuel ih =>
    intro off hf
    unfold name_walk
    by_cases hoff : off < len - 4
    · have hget : global_buf[off]? = some (global_buf[off]) :=
        List.getElem?_eq_getElem (by omega)
      simp only [hoff, if_true, hget]
      split_ifs with h1 h2
      · exact ⟨false, off, rfl, by simp⟩
      · exact ⟨true, off + 1, rfl, fun _ => ⟨by omega, by omega⟩⟩
      · obtain ⟨ended, off1, hw, hb⟩ := ih (off + (1 + global_buf[off])) (by omega)
        exact ⟨ended, off1, hw, fun he => ⟨by have := hb he; omega, (hb he).2⟩⟩
    · simp only [hoff, if_false]
      exact ⟨false, off, rfl, by simp⟩

theorem memcpy_length (dst src r : List Nat) (d s n : Nat)
    (h : memcpy dst d src s n = some r) : r.length = dst.length := by
  unfold memcpy at h
  split_ifs at h with hc
  cases h
  simp only [List.length_append, List.length_take, List.length_drop]
  omega

theorem store_length (dst r : List Nat) (i v : Nat) (h : store dst i v = some r) :
    r.length = dst.length := by
  unfold store at h
  split_ifs at h
  cases h
  simp

theorem compress_total (compression_buf global_buf : List Nat) (off : Nat)
    (hbuf : compression_buf.length = BUF_SIZE) (hlen : global_buf.length < BUF_SIZE)
    (h1 : 1 ≤ off) (h2 : off ≤ global_buf.length) :
    ∃ cbuf, compress compression_buf global_buf global_buf.length off = some cbuf ∧
      cbuf.length = BUF_SIZE := by
  have m1 : ∃ b1, memcpy compression_buf 0 global_buf 0 (off - 1) = some b1 := by
    unfold memcpy
    rw [if_pos ⟨by omega, by omega⟩]
    exact ⟨_, rfl⟩
  obtain ⟨b1, hb1⟩ := m1
  have l1 := memcpy_length _ _ _ _ _ _ hb1
  have m2 : ∃ b2, memcpy b1 (off + 1) global_buf off (global_buf.length - off) = some b2 := by
    unfold memcpy
    rw [if_pos ⟨by omega, by omega⟩]
    exact ⟨_, rfl⟩
  obtain ⟨b2, hb2⟩ := m2
  have l2 := memcpy_length _ _ _ _ _ _ hb2
  have m3 : ∃ b3, store b2 (off - 1) 192 = some b3 := by
    unfold store
    rw [if_pos (by omega)]
    exact ⟨_, rfl⟩
  obtain ⟨b3, hb3⟩ := m3
  have l3 := store_length _ _ _ _ hb3
  have m4 : ∃ b4, store b3 off 4 = some b4 := by
    unfold store
    rw [if_pos (by omega)]
    exact ⟨_, rfl⟩
  obtain ⟨b4, hb4⟩ := m4
  have l4 := store_length _ _ _ _ hb4
  refine ⟨b4, ?_, by omega⟩
  simp only [compress, hb1, hb2, hb3, hb4]

/-- The handler `dns_handle_local` completes on every datagram shorter than `BUF_SIZE`, and
`compression_buf` keeps its size. -/
theorem dns_handle_local_total (env : Env) (s : State) (dgram : List Nat) (src_addr : sockaddr)
    (src_addrlen : Nat) (hbuf : s.compression_buf.length = BUF_SIZE)
    (hlen : dgram.length < BUF_SIZE) :
    ∃ s1, dns_handle_local env s dgram src_addr src_addrlen = some s1 ∧
      s1.compression_buf.length = BUF_SIZE := by
  have hrecv : recvfrom dgram = dgram := recvfrom_of_le dgram (by omega)
  unfold dns_handle_local
  simp only [hrecv]
  by_cases h0 : dgram.length > 0
  · simp only [h0, if_true]
    cases env.ns_initparse dgram with
    | none => exact ⟨s, rfl, hbuf⟩
    | some msg =>
      simp only
      by_cases h16 : dgram.length > 16
      · simp only [h16, if_true]
        obtain ⟨ended, off1, hw, hb⟩ := name_walk_total dgram dgram.length (le_refl _)
          dgram.length 12 (by omega)
        rw [hw]
        cases ended with
        | false => exact ⟨_, rfl, hbuf⟩
        | true =>
          obtain ⟨hb1, hb2⟩ := hb rfl
          obtain ⟨cbuf, hc, hcl⟩ := compress_total s.compression_buf dgram off1 hbuf hlen
            (by omega) (by omega)
          simp only [hc]
          rw [if_pos (by omega)]
          exact ⟨_, rfl, hcl⟩
      · simp only [h16, if_false]
        exact ⟨_, rfl, hbuf⟩
  · simp only [h0, if_false]
    exact ⟨s, rfl, hbuf⟩

/-! ## Soundness of the prefix search and monotonicity of the filter -/

/-- Claim C11.  For every index, sorted or not, and every address `a`: on the empty index
`test_ip_in_list` returns false; on a non-empty index the search loop terminates with an index
inside the array and `test_ip_in_list` returns a value; and whenever `test_ip_in_list` returns
true, some entry of the index covers `a`, that is `(a XOR net) AND NOT mask == 0`. -/
theorem test_ip_in_list_sound (a : Nat) (nets : List net_mask_t) :
    (nets = [] → test_ip_in_list a nets = some false) ∧
    (nets ≠ [] → ∃ k, search_loop nets a nets.length 0 (nets.length - 1) = some k ∧
      k < nets.length) ∧
    (∃ b, test_ip_in_list a nets = some b) ∧
    (test_ip_in_list a nets = some true →
      ∃ e ∈ nets, (a ^^^ e.net) &&& (UINT32_MAX ^^^ e.mask) = 0) := by
  refine ⟨?_, ?_, test_ip_in_list_total a nets, ?_⟩
  · intro h; rw [h]; rfl
  · intro h
    have hlen : 0 < nets.length := List.length_pos.2 h
    obtain ⟨k, hk, _, hk2⟩ := search_loop_total nets a nets.length 0 (nets.length - 1)
      (by omega) (by omega) (by omega)
    exact ⟨k, hk, by omega⟩
  · intro h
    by_cases hne : nets.length = 0
    · simp [test_ip_in_list, hne] at h
    · obtain ⟨k, e, _, hke, htest⟩ := test_ip_in_list_at a nets hne
      rw [htest] at h
      have hcov : covers e a = true := by
        rw [← net_test_eq_covers]; exact Option.some.inj h
      refine ⟨e, List.mem_iff_getElem?.2 ⟨k, hke⟩, ?_⟩
      simpa [covers] using hcov

theorem filter_loop_mono (cfg1 cfg2 : Config) (is_chn : Bool)
    (hlist : cfg1.chnroute_list = cfg2.chnroute_list)
    (hoff : cfg1.bidirectional = false) (an : List (Option ns_rr))
    (h : filter_loop cfg1 is_chn an = some true) :
    filter_loop cfg2 is_chn an = some true := by
  induction an with
  | nil => exact absurd h (by simp [filter_loop])
  | cons r rest ih =>
    cases r with
    | none => exact absurd h (by simp [filter_loop])
    | some rr =>
      unfold filter_loop at h ⊢
      rw [← hlist]
      obtain ⟨b, hb⟩ := test_ip_in_list_total rr.rdata cfg1.chnroute_list
      by_cases ht : rr.type = ns_t_a
      · simp only [ht, if_true, hb] at h ⊢
        cases b <;> cases is_chn <;> simp_all
      · simp only [ht, if_false] at h ⊢
        exact ih h

/-- Claim C12.  For every response, upstream address, prefix index and upstream set: if
`should_filter_query` returns true with `bidirectional` off, it returns true with
`bidirectional` on, all other settings being equal. -/
theorem should_filter_query_mono (cfg : Config) (msg : ns_msg) (dns_addr : Nat)
    (h : should_filter_query { cfg with bidirectional := false } msg dns_addr = some true) :
    should_filter_query { cfg with bidirectional := true } msg dns_addr = some true := by
  unfold should_filter_query at h ⊢
  have hchn : dns_is_chn { cfg with bidirectional := true } dns_addr
      = dns_is_chn { cfg with bidirectional := false } dns_addr := rfl
  rw [hchn]
  exact filter_loop_mono { cfg with bidirectional := false } { cfg with bidirectional := true }
    _ rfl rfl msg.an h

/-- Instance of `should_filter_query_mono` at the settings of scenarios S4 and S5: the reply
`A = 93.184.216.34` of the domestic upstream is dropped with `bidirectional` off, and dropped
with `bidirectional` on. -/
theorem should_filter_query_mono_witness :
    should_filter_query { S4_config false with bidirectional := false }
      (a_reply 7 (ip4 93 184 216 34)) S4_domestic.sin_addr = some true ∧
    should_filter_query { S4_config false with bidirectional := true }
      (a_reply 7 (ip4 93 184 216 34)) S4_domestic.sin_addr = some true :=
  ⟨by decide,
    should_filter_query_mono (S4_config false) (a_reply 7 (ip4 93 184 216 34))
      S4_domestic.sin_addr (by decide)⟩

/-! ## Entries of the zeroed table and answer records that fail to parse -/

theorem foldl_queue_add_slot (inserts : List id_addr_t) (i : Fin 256) :
    ∀ (queue : Fin 256 → id_addr_t),
      (inserts.foldl queue_add queue i = queue i ∧ ∀ x ∈ inserts, slot x.id ≠ i) ∨
      (∃ pre x post, inserts = pre ++ x :: post ∧ slot x.id = i ∧
        (∀ y ∈ post, slot y.id ≠ i) ∧ inserts.foldl queue_add queue i = x) := by
  induction inserts with
  | nil => intro queue; exact Or.inl ⟨rfl, by simp⟩
  | cons e rest ih =>
    intro queue
    rw [List.foldl_cons]
    rcases ih (queue_add queue e) with ⟨h1, h2⟩ | ⟨pre, x, post, h1, h2, h3, h4⟩
    · by_cases hs : slot e.id = i
      · right
        refine ⟨[], e, rest, rfl, hs, h2, ?_⟩
        rw [h1, ← hs]
        exact queue_add_same queue e
      · left
        refine ⟨?_, ?_⟩
        · rw [h1]
          exact queue_add_other queue e i (fun h => hs h.symm)
        · intro x hx
          rcases List.mem_cons.1 hx with h | h
          · rw [h]; exact hs
          · exact h2 x h
    · right
      exact ⟨e :: pre, x, post, by rw [h1]; rfl, h2, h3, h4⟩

/-- In a table reached from the zeroed table by inserts that carry a
non-null address, `queue_lookup id` returns either the most recent insert into slot
`id & 0xff`, which then stored exactly `id` and has a non-null address, or, for `id = 0` when
nothing was inserted into slot `0`, the zeroed entry, whose address is null. -/
theorem queue_lookup_reachable (inserts : List id_addr_t) (id : Nat) (e : id_addr_t)
    (haddr : ∀ x ∈ inserts, x.addr ≠ none)
    (h : queue_lookup (inserts.foldl queue_add queue_zero) id = some e) :
    (∃ pre post, inserts = pre ++ e :: post ∧ e.id = id ∧ e.addr ≠ none ∧
      ∀ y ∈ post, y.id &&& 255 ≠ id &&& 255) ∨
    (id = 0 ∧ e = ⟨0, none, 0⟩ ∧ ∀ x ∈ inserts, x.id &&& 255 ≠ 0) := by
  obtain ⟨he1, he2⟩ := queue_lookup_some _ _ _ h
  rcases foldl_queue_add_slot inserts (slot id) queue_zero with
    ⟨h1, h2⟩ | ⟨pre, x, post, h1, _, h3, h4⟩
  · right
    rw [h1] at he1
    have hz : e = ⟨0, none, 0⟩ := he1
    have hid : id = 0 := by rw [← he2, hz]
    refine ⟨hid, hz, ?_⟩
    intro x hx hc
    apply h2 x hx
    rw [slot_eq_iff, hid]
    exact hc
  · left
    rw [h4] at he1
    subst he1
    refine ⟨pre, post, h1, he2, haddr e (by rw [h1]; simp), ?_⟩
    intro y hy hc
    exact h3 y hy ((slot_eq_iff _ _).2 hc)

set_option maxRecDepth 100000 in
/-- Claim C20, at the failing input.  On the zeroed table `queue_lookup 0` is not `NULL`: the
entry of slot `0` holds id `0`, so it is returned, with its null `addr`.  A response with
transaction id `0` that arrives before any query was stored in slot `0` therefore makes
`dns_handle_remote` dereference a null pointer (line 536): the handler has no defined result.
For the id `0x1234` the lookup on the zeroed table is `NULL`. -/
theorem queue_lookup_zero_id :
    queue_lookup queue_zero 0 = some ⟨0, none, 0⟩ ∧
    (wire_env (S3_config false)).ns_initparse (recvfrom (example_reply 0 0 93 184 216 34))
      = some (a_reply 0 (ip4 93 184 216 34)) ∧
    dns_handle_remote (wire_env (S3_config false)) State.init
      (example_reply 0 0 93 184 216 34) S4_foreign = none ∧
    queue_lookup queue_zero 4660 = none :=
  ⟨by decide, by decide, Option.isNone_iff_eq_none.1 (by decide), by decide⟩

theorem should_filter_query_parse_error (cfg : Config) (id : Nat) (rest : List (Option ns_rr))
    (dns_addr : Nat) : should_filter_query cfg ⟨id, none :: rest⟩ dns_addr = some false := by
  simp [should_filter_query, filter_loop]

set_option maxRecDepth 100000 in
/-- Claim C19, counterexample.  With the prefix file of scenario S5 and `bidirectional`
on, client X sends the query `example.com` and the foreign upstream returns `malformed_reply`,
whose only answer record fails in `ns_parserr`.  `should_filter_query` returns false at line
619, and `dns_handle_remote` forwards the datagram to X: the parse failure results in a
pass. -/
theorem malformed_reply_forwarded :
    (wire_env (S4_config true)).ns_initparse (recvfrom malformed_reply) = some ⟨4660, [none]⟩ ∧
    should_filter_query (S4_config true) ⟨4660, [none]⟩ S4_foreign.sin_addr = some false ∧
    (run (wire_env (S4_config true)) State.init
      [Event.client (example_query 18 52) client_X 16,
       Event.upstream malformed_reply S4_foreign]).map forwarded
    = some [⟨Sock.local_sock, malformed_reply, client_X, 16⟩] := by
  decide

/-! ## The question walk and the rewrite -/

theorem label_walk_le (buf : List Nat) (off p : Nat) (h : label_walk buf off p) : off ≤ p := by
  induction h with
  | here off => exact le_refl _
  | step off b p _ _ _ _ ih => omega

theorem name_walk_ended (buf : List Nat) (len off z : Nat) (hwalk : label_walk buf off z)
    (hz : buf[z]? = some 0) (hzlt : z < len - 4) :
    ∀ fuel, len - off < fuel → name_walk buf len fuel off = some (true, z + 1) := by
  induction hwalk with
  | here off =>
    intro fuel hf
    cases fuel with
    | zero => omega
    | succ fuel => simp [name_walk, hzlt, hz]
  | step off b p hget hb0 hb192 hrest ih =>
    intro fuel hf
    have hle := label_walk_le buf _ _ hrest
    cases fuel with
    | zero => omega
    | succ fuel =>
      have hoff : off < len - 4 := by omega
      unfold name_walk
      simp only [hoff, if_true, hget, hb192, ne_eq, not_true_eq_false, if_false, hb0]
      exact ih hz hzlt fuel (by omega)

theorem name_walk_not_ended (buf : List Nat) (len off p : Nat) (hwalk : label_walk buf off p)
    (hstop : (∃ b, buf[p]? = some b ∧ b &&& 192 ≠ 0) ∨ len - 4 ≤ p) :
    ∀ fuel, len - off < fuel → ∃ off1, name_walk buf len fuel off = some (false, off1) := by
  induction hwalk with
  | here off =>
    intro fuel hf
    cases fuel with
    | zero => omega
    | succ fuel =>
      unfold name_walk
      by_cases hoff : off < len - 4
      · rcases hstop with ⟨b, hb, hb192⟩ | h
        · simp only [hoff, if_true, hb, hb192, ne_eq, not_false_eq_true]
          exact ⟨off, rfl⟩
        · omega
      · simp only [hoff, if_false]
        exact ⟨off, rfl⟩
  | step off b p hget hb0 hb192 hrest ih =>
    intro fuel hf
    cases fuel with
    | zero => omega
    | succ fuel =>
      unfold name_walk
      by_cases hoff : off < len - 4
      · simp only [hoff, if_true, hget, hb192, ne_eq, not_true_eq_false, if_false, hb0]
        exact ih hstop fuel (by omega)
      · simp only [hoff, if_false]
        exact ⟨off, rfl⟩

theorem compress_shape (cbuf buf : List Nat) (z : Nat) (hz : z + 1 ≤ buf.length)
    (hfit : buf.length + 1 ≤ cbuf.length) :
    ∃ r, compress cbuf buf buf.length (z + 1) = some r ∧ r.length = cbuf.length ∧
      r.take (buf.length + 1) = buf.take z ++ [192, 4] ++ buf.drop (z + 1) := by
  obtain ⟨A, X, hA, hcb⟩ : ∃ A X, A.length = z ∧ cbuf = A ++ X :=
    ⟨cbuf.take z, cbuf.drop z, by simp only [List.length_take]; omega,
      (List.take_append_drop z cbuf).symm⟩
  have hX : 2 ≤ X.length := by
    have : cbuf.length = A.length + X.length := by rw [hcb]; simp
    omega
  match X, hX with
  | x0 :: x1 :: C, _ =>
    have hT : (buf.take z).length = z := by simp only [List.length_take]; omega
    have hD : (buf.drop (z + 1)).length = buf.length - (z + 1) := by simp
    have hlen : cbuf.length = z + (C.length + 2) := by rw [hcb]; simp [hA]
    -- first copy
    have h1 : memcpy cbuf 0 buf 0 z = some (buf.take z ++ x0 :: x1 :: C) := by
      unfold memcpy
      rw [if_pos ⟨by omega, by omega⟩]
      simp only [List.take_zero, List.drop_zero, List.nil_append, Nat.zero_add]
      rw [hcb, ← hA, List.drop_left]
    have h2 : memcpy (buf.take z ++ x0 :: x1 :: C) (z + 1 + 1) buf (z + 1)
        (buf.length - (z + 1)) =
        some (buf.take z ++ [x0, x1] ++ buf.drop (z + 1) ++ C.drop (buf.length - (z + 1))) := by
      unfold memcpy
      rw [if_pos ⟨by simp only [List.length_append, hT, List.length_cons]; omega, by omega⟩]
      congr 1
      have e1 : (buf.take z ++ x0 :: x1 :: C).take (z + 1 + 1) = buf.take z ++ [x0, x1] := by
        rw [List.take_append_eq_append_take, hT]
        have : z + 1 + 1 - z = 2 := by omega
        rw [this, List.take_of_length_le (by rw [hT]; omega)]
        rfl
      have e2 : (buf.drop (z + 1)).take (buf.length - (z + 1)) = buf.drop (z + 1) :=
        List.take_of_length_le (by rw [hD])
      have e3 : (buf.take z ++ x0 :: x1 :: C).drop (z + 1 + 1 + (buf.length - (z + 1)))
          = C.drop (buf.length - (z + 1)) := by
        rw [List.drop_append_eq_append_drop, hT]
        have : z + 1 + 1 + (buf.length - (z + 1)) - z = (buf.length - (z + 1)) + 2 := by omega
        rw [this, List.drop_of_length_le (by rw [hT]; omega)]
        rfl
      rw [e1, e2, e3]
    have h3 : store (buf.take z ++ [x0, x1] ++ buf.drop (z + 1) ++ C.drop (buf.length - (z + 1)))
        z 192 =
        some (buf.take z ++ [192, x1] ++ buf.drop (z + 1) ++ C.drop (buf.length - (z + 1))) := by
      unfold store
      rw [if_pos (by simp only [List.length_append, hT, List.length_cons]; omega)]
      congr 1
      simp only [List.append_assoc, List.set_append, hT, lt_self_iff_false, if_false,
        Nat.sub_self]
      rfl
    have h4 : store (buf.take z ++ [192, x1] ++ buf.drop (z + 1) ++ C.drop (buf.length - (z + 1)))
        (z + 1) 4 =
        some (buf.take z ++ [192, 4] ++ buf.drop (z + 1) ++ C.drop (buf.length - (z + 1))) := by
      unfold store
      rw [if_pos (by simp only [List.length_append, hT, List.length_cons]; omega)]
      congr 1
      have hn : ¬ (z + 1 < z) := by omega
      have hs : z + 1 - z = 1 := by omega
      simp only [List.append_assoc, List.set_append, hT, hn, if_false, hs]
      rfl
    refine ⟨buf.take z ++ [192, 4] ++ buf.drop (z + 1) ++ C.drop (buf.length - (z + 1)), ?_, ?_,
      ?_⟩
    · simp only [compress, Nat.add_sub_cancel, h1, h2, h3, h4]
    · simp only [List.length_append, hT, List.length_cons, hD, List.length_nil,
        List.length_drop, hlen]
      omega
    · rw [List.take_append_eq_append_take, List.take_of_length_le
        (by simp only [List.length_append, hT, List.length_cons, hD, List.length_nil]; omega)]
      have : buf.length + 1 - (buf.take z ++ [192, 4] ++ buf.drop (z + 1)).length = 0 := by
        simp only [List.length_append, hT, List.length_cons, hD, List.length_nil]; omega
      rw [this, List.take_zero, List.append_nil]

theorem dns_handle_local_ended (env : Env) (s : State) (dgram : List Nat) (src_addr : sockaddr)
    (src_addrlen : Nat) (msg : ns_msg) (off : Nat) (cbuf : List Nat)
    (hparse : env.ns_initparse (recvfrom dgram) = some msg)
    (h16 : 16 < (recvfrom dgram).length)
    (hw : name_walk (recvfrom dgram) (recvfrom dgram).length (recvfrom dgram).length 12
      = some (true, off))
    (hc : compress s.compression_buf (recvfrom dgram) (recvfrom dgram).length off = some cbuf)
    (hfit : (recvfrom dgram).length + 1 ≤ cbuf.length) :
    dns_handle_local env s dgram src_addr src_addrlen = some
      { id_addr_queue := queue_add s.id_addr_queue ⟨msg.id % 65536, some src_addr, src_addrlen⟩
        compression_buf := cbuf
        sent := s.sent
          ++ send_all env.cfg.foreign_dns_server_addrs (cbuf.take ((recvfrom dgram).length + 1))
          ++ send_all env.cfg.chn_dns_server_addrs (recvfrom dgram) } := by
  have h0 : (recvfrom dgram).length > 0 := by omega
  unfold dns_handle_local
  simp only [h0, if_true, hparse, gt_iff_lt, h16, hw, hc, hfit]

theorem dns_handle_local_not_ended (env : Env) (s : State) (dgram : List Nat)
    (src_addr : sockaddr) (src_addrlen : Nat) (msg : ns_msg) (off : Nat)
    (hparse : env.ns_initparse (recvfrom dgram) = some msg)
    (h16 : 16 < (recvfrom dgram).length)
    (hw : name_walk (recvfrom dgram) (recvfrom dgram).length (recvfrom dgram).length 12
      = some (false, off)) :
    dns_handle_local env s dgram src_addr src_addrlen = some
      { id_addr_queue := queue_add s.id_addr_queue ⟨msg.id % 65536, some src_addr, src_addrlen⟩
        compression_buf := s.compression_buf
        sent := s.sent
          ++ send_all env.cfg.foreign_dns_server_addrs (recvfrom dgram)
          ++ send_all env.cfg.chn_dns_server_addrs (recvfrom dgram) } := by
  have h0 : (recvfrom dgram).length > 0 := by omega
  unfold dns_handle_local
  simp only [h0, if_true, hparse, gt_iff_lt, h16, hw]


/-- Claim C18.  For every datagram of length `len > 16` that passes `ns_initparse`: if the
label walk from offset 12 reaches, before any zero length octet, an octet whose high two bits
are `11`, or reaches an offset `≥ len - 4`, then the loop of `dns_handle_local` is left with
`ended = 0`, every octet it reads lies inside the received bytes (it reads `global_buf[off]`
only for `off < len - 4`), the handler returns, `compression_buf` is untouched, and each foreign
upstream, like each domestic upstream, is sent the received bytes. -/
theorem rewrite_noop (env : Env) (s : State) (dgram : List Nat) (src_addr : sockaddr)
    (src_addrlen : Nat) (msg : ns_msg) (p : Nat)
    (hparse : env.ns_initparse (recvfrom dgram) = some msg)
    (h16 : 16 < (recvfrom dgram).length)
    (hwalk : label_walk (recvfrom dgram) 12 p)
    (hstop : (∃ b, (recvfrom dgram)[p]? = some b ∧ b &&& 192 = 192) ∨
      (recvfrom dgram).length - 4 ≤ p) :
    (∃ off, name_walk (recvfrom dgram) (recvfrom dgram).length (recvfrom dgram).length 12
      = some (false, off)) ∧
    ∃ s1, dns_handle_local env s dgram src_addr src_addrlen = some s1 ∧
      s1.compression_buf = s.compression_buf ∧
      s1.sent = s.sent
        ++ send_all env.cfg.foreign_dns_server_addrs (recvfrom dgram)
        ++ send_all env.cfg.chn_dns_server_addrs (recvfrom dgram) := by
  have hstop1 : (∃ b, (recvfrom dgram)[p]? = some b ∧ b &&& 192 ≠ 0) ∨
      (recvfrom dgram).length - 4 ≤ p := by
    rcases hstop with ⟨b, hb, hb192⟩ | h
    · exact Or.inl ⟨b, hb, by rw [hb192]; decide⟩
    · exact Or.inr h
  obtain ⟨off, hw⟩ := name_walk_not_ended (recvfrom dgram) (recvfrom dgram).length 12 p hwalk
    hstop1 (recvfrom dgram).length (by omega)
  exact ⟨⟨off, hw⟩, _,
    dns_handle_local_not_ended env s dgram src_addr src_addrlen msg off hparse h16 hw, rfl, rfl⟩

set_option maxRecDepth 100000 in
/-- Instance of `rewrite_noop`: the query `rewritten_query`, whose question name ends in a
compression pointer at offset 24, is sent unchanged to the foreign and to the domestic
upstream of scenario S4. -/
theorem rewrite_noop_witness :
    (wire_env (S4_config false)).ns_initparse (recvfrom rewritten_query) = some ⟨4660, []⟩ ∧
    16 < (recvfrom rewritten_query).length ∧
    label_walk (recvfrom rewritten_query) 12 24 ∧
    (∃ b, (recvfrom rewritten_query)[24]? = some b ∧ b &&& 192 = 192) ∧
    ∃ s1, dns_handle_local (wire_env (S4_config false)) State.init rewritten_query client_X 16
        = some s1 ∧
      s1.sent = [⟨Sock.remote_sock, rewritten_query, S4_foreign, 16⟩,
                 ⟨Sock.remote_sock, rewritten_query, S4_domestic, 16⟩] := by
  have hwalk : label_walk (recvfrom rewritten_query) 12 24 :=
    label_walk.step 12 7 24 (by decide) (by decide) (by decide)
      (label_walk.step 20 3 24 (by decide) (by decide) (by decide) (label_walk.here 24))
  have hstop : ∃ b, (recvfrom rewritten_query)[24]? = some b ∧ b &&& 192 = 192 :=
    ⟨192, by decide, by decide⟩
  obtain ⟨_, s1, hs1, _, hsent⟩ := rewrite_noop (wire_env (S4_config false)) State.init
    rewritten_query client_X 16 ⟨4660, []⟩ 24 (by decide) (by decide) hwalk (Or.inl hstop)
  exact ⟨by decide, by decide, hwalk, hstop, s1, hs1, hsent⟩


/-- For every datagram of length `17 ≤ len ≤ 511` that passes
`ns_initparse` and in which the label walk from offset 12 reaches a zero octet at index
`z < len - 4`, the handler returns and each foreign upstream is sent
`buf[0..z) ++ [0xC0, 0x04] ++ buf[z+1..len)`, whose length is `len + 1`; each domestic upstream
is sent the received bytes. -/
theorem rewrite_shape (env : Env) (s : State) (dgram : List Nat) (src_addr : sockaddr)
    (src_addrlen : Nat) (msg : ns_msg) (z : Nat)
    (hparse : env.ns_initparse (recvfrom dgram) = some msg)
    (h16 : 16 < (recvfrom dgram).length)
    (hwalk : label_walk (recvfrom dgram) 12 z)
    (hz : (recvfrom dgram)[z]? = some 0)
    (hzlt : z < (recvfrom dgram).length - 4)
    (hbuf : s.compression_buf.length = BUF_SIZE)
    (hlt : (recvfrom dgram).length < BUF_SIZE) :
    ∃ s1, dns_handle_local env s dgram src_addr src_addrlen = some s1 ∧
      s1.sent = s.sent
        ++ send_all env.cfg.foreign_dns_server_addrs
            ((recvfrom dgram).take z ++ [192, 4] ++ (recvfrom dgram).drop (z + 1))
        ++ send_all env.cfg.chn_dns_server_addrs (recvfrom dgram) ∧
      ((recvfrom dgram).take z ++ [192, 4] ++ (recvfrom dgram).drop (z + 1)).length
        = (recvfrom dgram).length + 1 := by
  have hw := name_walk_ended (recvfrom dgram) (recvfrom dgram).length 12 z hwalk hz hzlt
    (recvfrom dgram).length (by omega)
  obtain ⟨cbuf, hc, hcl, hshape⟩ := compress_shape s.compression_buf (recvfrom dgram) z
    (by omega) (by omega)
  have hh := dns_handle_local_ended env s dgram src_addr src_addrlen msg (z + 1) cbuf hparse
    h16 hw hc (by omega)
  refine ⟨_, hh, ?_, ?_⟩
  · simp only [hshape]
  · simp only [List.length_append, List.length_take, List.length_drop, List.length_cons,
      List.length_nil]
    omega

/-- For every client datagram shorter than 512 bytes the handler
returns, every write of the rewrite stays inside `compression_buf`, and every datagram passed
to `sendto` has at most 512 bytes. -/
theorem dns_handle_local_sizes (env : Env) (s : State) (dgram : List Nat) (src_addr : sockaddr)
    (src_addrlen : Nat) (hbuf : s.compression_buf.length = BUF_SIZE)
    (hlt : dgram.length < BUF_SIZE) :
    ∃ s1 added, dns_handle_local env s dgram src_addr src_addrlen = some s1 ∧
      s1.compression_buf.length = BUF_SIZE ∧
      s1.sent = s.sent ++ added ∧ ∀ p ∈ added, p.buf.length ≤ BUF_SIZE := by
  have hrecv : recvfrom dgram = dgram := recvfrom_of_le dgram (by omega)
  have hsend : ∀ (servers : List dns_server) (buf : List Nat), buf.length ≤ BUF_SIZE →
      ∀ p ∈ send_all servers buf, p.buf.length ≤ BUF_SIZE := by
    intro servers buf hb p hp
    simp only [send_all, List.mem_map] at hp
    obtain ⟨srv, _, rfl⟩ := hp
    exact hb
  by_cases hq : 0 < (recvfrom dgram).length ∧
      ∃ msg, env.ns_initparse (recvfrom dgram) = some msg
  · obtain ⟨h0, msg, hparse⟩ := hq
    by_cases h16 : 16 < (recvfrom dgram).length
    · obtain ⟨ended, off, hw, hb⟩ := name_walk_total (recvfrom dgram) (recvfrom dgram).length
        (le_refl _) (recvfrom dgram).length 12 (by omega)
      cases ended with
      | false =>
        refine ⟨_, _, dns_handle_local_not_ended env s dgram src_addr src_addrlen msg off hparse
          h16 hw, hbuf, List.append_assoc _ _ _, ?_⟩
        intro p hp
        rcases List.mem_append.1 hp with h | h
        · exact hsend _ _ (by rw [hrecv]; omega) p h
        · exact hsend _ _ (by rw [hrecv]; omega) p h
      | true =>
        obtain ⟨hb1, hb2⟩ := hb rfl
        obtain ⟨cbuf, hc, hcl⟩ := compress_total s.compression_buf (recvfrom dgram) off hbuf
          (by rw [hrecv]; exact hlt) (by omega) (by omega)
        refine ⟨_, _, dns_handle_local_ended env s dgram src_addr src_addrlen msg off cbuf
          hparse h16 hw hc (by rw [hcl, hrecv]; omega), hcl, List.append_assoc _ _ _, ?_⟩
        intro p hp
        rcases List.mem_append.1 hp with h | h
        · refine hsend _ _ ?_ p h
          simp only [List.length_take, hcl]
          omega
        · exact hsend _ _ (by rw [hrecv]; omega) p h
    · have hh : dns_handle_local env s dgram src_addr src_addrlen = some
          { s with id_addr_queue :=
              queue_add s.id_addr_queue ⟨msg.id % 65536, some src_addr, src_addrlen⟩ } := by
        unfold dns_handle_local
        simp only [gt_iff_lt, h0, if_true, hparse, h16, if_false]
      exact ⟨_, [], hh, hbuf, by simp, by simp⟩
  · obtain ⟨s1, hs1, hl1⟩ := dns_handle_local_total env s dgram src_addr src_addrlen hbuf hlt
    have := dns_handle_local_unparsed env s s1 dgram src_addr src_addrlen hq hs1
    subst this
    exact ⟨s1, [], hs1, hbuf, by simp, by simp⟩

set_option maxRecDepth 100000 in
/-- Claim C16, at the failing input.  `padded_query` is a datagram of 512 bytes whose question
name ends at offset 24, so the loop of `dns_handle_local` is left with `ended = 1` and
`off = 25`.  The second `memcpy` (line 484) then copies `len - off = 487` bytes to
`compression_buf + 26`, that is up to index 512 of the 512-byte array, and `sendto` would be
passed `len + 1 = 513` bytes: the copy does not fit, and the handler has no defined result. -/
theorem padded_query_overflow :
    padded_query.length = BUF_SIZE ∧
    wire_initparse (recvfrom padded_query) = some ⟨4660, []⟩ ∧
    name_walk (recvfrom padded_query) 512 512 12 = some (true, 25) ∧
    (26 + (512 - 25) = BUF_SIZE + 1 ∧
      ∀ b1, b1.length = BUF_SIZE → memcpy b1 (25 + 1) (recvfrom padded_query) 25 (512 - 25)
        = none) ∧
    compress State.init.compression_buf (recvfrom padded_query) 512 25 = none ∧
    dns_handle_local (wire_env (S4_config false)) State.init padded_query client_X 16 = none := by
  refine ⟨by decide, by decide, by decide, ⟨by decide, ?_⟩, by decide,
    Option.isNone_iff_eq_none.1 (by decide)⟩
  intro b1 hb1
  unfold memcpy
  rw [if_neg]
  rw [hb1]
  decide

set_option maxRecDepth 100000 in
/-- The rewrite with the 512 bytes of the array only.  In the 512-byte datagram `padded_query`
the label walk from offset 12 reaches the zero octet at index `z = 24 < len - 4`.  The
rewritten datagram `buf[0..24) ++ [0xC0, 0x04] ++ buf[25..512)` has 513 bytes and does not fit
the 512 bytes of `compression_buf`: with the array alone the handler has no defined result.  On
the 29-byte query `example_query` the rewritten datagram is sent. -/
theorem padded_query_rewrite :
    16 < (recvfrom padded_query).length ∧
    label_walk (recvfrom padded_query) 12 24 ∧
    (recvfrom padded_query)[24]? = some 0 ∧
    24 < (recvfrom padded_query).length - 4 ∧
    ((recvfrom padded_query).take 24 ++ [192, 4] ++ (recvfrom padded_query).drop 25).length
      = BUF_SIZE + 1 ∧
    dns_handle_local (wire_env (S4_config false)) State.init padded_query client_X 16 = none ∧
    (dns_handle_local (wire_env (S4_config false)) State.init (example_query 18 52)
        client_X 16).map (fun s1 => s1.sent)
      = some [⟨Sock.remote_sock, rewritten_query, S4_foreign, 16⟩,
              ⟨Sock.remote_sock, example_query 18 52, S4_domestic, 16⟩] :=
  ⟨by decide,
    label_walk.step 12 7 24 (by decide) (by decide) (by decide)
      (label_walk.step 20 3 24 (by decide) (by decide) (by decide) (label_walk.here 24)),
    by decide, by decide, by decide, Option.isNone_iff_eq_none.1 (by decide), by decide⟩


theorem classify_loop_spec (getaddrinfo : List Char → List Char → Option dns_server)
    (chnroute_list : List net_mask_t) :
    ∀ (tokens : List (List Char)) (endpoints chn foreign : List dns_server),
      tokens.map (fun tok => getaddrinfo (host_port tok).1 (host_port tok).2)
        = endpoints.map some →
      classify_loop getaddrinfo chnroute_list tokens chn foreign = some (some
        (chn ++ endpoints.filter
            (fun srv => test_ip_in_list srv.addr.sin_addr chnroute_list == some true),
         foreign ++ endpoints.filter
            (fun srv => !(test_ip_in_list srv.addr.sin_addr chnroute_list == some true)))) := by
  intro tokens
  induction tokens with
  | nil =>
    intro endpoints chn foreign h
    cases endpoints with
    | nil => simp [classify_loop]
    | cons e es => simp at h
  | cons tok rest ih =>
    intro endpoints chn foreign h
    cases endpoints with
    | nil => simp at h
    | cons e es =>
      simp only [List.map_cons, List.cons.injEq] at h
      obtain ⟨h1, h2⟩ := h
      unfold classify_loop
      rw [h1]
      obtain ⟨b, hb⟩ := test_ip_in_list_total e.addr.sin_addr chnroute_list
      cases b with
      | true =>
        simp only [hb]
        rw [ih es (chn ++ [e]) foreign h2]
        simp [List.filter_cons, hb]
      | false =>
        simp only [hb]
        rw [ih es chn (foreign ++ [e]) h2]
        simp [List.filter_cons, hb]

theorem classify_loop_inv (getaddrinfo : List Char → List Char → Option dns_server)
    (chnroute_list : List net_mask_t) :
    ∀ (tokens : List (List Char)) (chn foreign c f : List dns_server),
      classify_loop getaddrinfo chnroute_list tokens chn foreign = some (some (c, f)) →
      ∃ endpoints : List dns_server,
        tokens.map (fun tok => getaddrinfo (host_port tok).1 (host_port tok).2)
          = endpoints.map some := by
  intro tokens
  induction tokens with
  | nil => intro chn foreign c f _; exact ⟨[], rfl⟩
  | cons tok rest ih =>
    intro chn foreign c f h
    unfold classify_loop at h
    cases hg : getaddrinfo (host_port tok).1 (host_port tok).2 with
    | none => rw [hg] at h; exact absurd h (by simp)
    | some srv =>
      rw [hg] at h
      obtain ⟨b, hb⟩ := test_ip_in_list_total srv.addr.sin_addr chnroute_list
      cases b with
      | true =>
        simp only [hb] at h
        obtain ⟨es, hes⟩ := ih _ _ c f h
        exact ⟨srv :: es, by simp [hg, hes]⟩
      | false =>
        simp only [hb] at h
        obtain ⟨es, hes⟩ := ih _ _ c f h
        exact ⟨srv :: es, by simp [hg, hes]⟩

/-- The classification in terms of the lookup.  Let `getaddrinfo` succeed on every token,
`endpoints` being the addresses it
returns, in the order of the tokens.  Then the loop of `resolve_dns_servers` puts into the
domestic array exactly the endpoints whose address `test_ip_in_list` finds in the prefix index
and into the foreign array exactly the others, both in the order of the tokens.  With a prefix
file configured the function fails iff one of the two arrays is empty; without a prefix file
(the index is then empty) it succeeds with every endpoint in the foreign array. -/
theorem resolve_dns_servers_classifies
    (getaddrinfo : List Char → List Char → Option dns_server) (chnroute_file : Bool)
    (chnroute_list : List net_mask_t) (dns_servers : List Char) (endpoints : List dns_server)
    (hres : (strtok_all dns_servers).map
        (fun tok => getaddrinfo (host_port tok).1 (host_port tok).2) = endpoints.map some) :
    resolve_dns_servers getaddrinfo chnroute_file chnroute_list dns_servers =
      some (if chnroute_file = true ∧
          (endpoints.filter (fun srv =>
              test_ip_in_list srv.addr.sin_addr chnroute_list == some true) = [] ∨
           endpoints.filter (fun srv =>
              !(test_ip_in_list srv.addr.sin_addr chnroute_list == some true)) = [])
        then none
        else some
          (endpoints.filter (fun srv =>
              test_ip_in_list srv.addr.sin_addr chnroute_list == some true),
           endpoints.filter (fun srv =>
              !(test_ip_in_list srv.addr.sin_addr chnroute_list == some true)))) ∧
    (chnroute_file = false → chnroute_list = [] →
      resolve_dns_servers getaddrinfo chnroute_file chnroute_list dns_servers
        = some (some ([], endpoints))) := by
  have hloop := classify_loop_spec getaddrinfo chnroute_list (strtok_all dns_servers) endpoints
    [] [] hres
  simp only [List.nil_append] at hloop
  have hmain : resolve_dns_servers getaddrinfo chnroute_file chnroute_list dns_servers =
      some (if chnroute_file = true ∧
          (endpoints.filter (fun srv =>
              test_ip_in_list srv.addr.sin_addr chnroute_list == some true) = [] ∨
           endpoints.filter (fun srv =>
              !(test_ip_in_list srv.addr.sin_addr chnroute_list == some true)) = [])
        then none
        else some
          (endpoints.filter (fun srv =>
              test_ip_in_list srv.addr.sin_addr chnroute_list == some true),
           endpoints.filter (fun srv =>
              !(test_ip_in_list srv.addr.sin_addr chnroute_list == some true)))) := by
    unfold resolve_dns_servers
    rw [hloop]
    simp only
    generalize endpoints.filter (fun srv =>
      test_ip_in_list srv.addr.sin_addr chnroute_list == some true) = chn
    generalize endpoints.filter (fun srv =>
      !(test_ip_in_list srv.addr.sin_addr chnroute_list == some true)) = foreign
    cases chnroute_file <;> cases chn <;> cases foreign <;> simp
  refine ⟨hmain, ?_⟩
  intro hfile hlist
  rw [hmain, hfile, hlist]
  have h1 : endpoints.filter (fun srv => test_ip_in_list srv.addr.sin_addr [] == some true)
      = [] := by
    rw [List.filter_eq_nil_iff]
    intro srv _
    simp [test_ip_in_list]
  have h2 : endpoints.filter (fun srv => !(test_ip_in_list srv.addr.sin_addr [] == some true))
      = endpoints := by
    rw [List.filter_eq_self]
    intro srv _
    simp [test_ip_in_list]
  simp [h1, h2]

/-- Instance of `resolve_dns_servers_classifies`: the upstream string of scenario S2 with the
index of scenario S1 and a prefix file configured; `114.114.114.114` and `8.8.8.8` both lie
outside the index as `test_ip_in_list` sees it, the domestic array stays empty and the function
fails. -/
theorem resolve_dns_servers_classifies_witness :
    (strtok_all S2_dns_servers).map
        (fun tok => decimal_getaddrinfo (host_port tok).1 (host_port tok).2)
      = [(⟨⟨AF_INET, 53, ip4 114 114 114 114⟩, 16⟩ : dns_server),
         ⟨⟨AF_INET, 53, ip4 8 8 8 8⟩, 16⟩].map some ∧
    resolve_dns_servers decimal_getaddrinfo true S1_index S2_dns_servers = some none ∧
    resolve_dns_servers decimal_getaddrinfo false [] S2_dns_servers
      = some (some ([], [⟨⟨AF_INET, 53, ip4 114 114 114 114⟩, 16⟩,
                         ⟨⟨AF_INET, 53, ip4 8 8 8 8⟩, 16⟩])) :=
  ⟨by decide,
    (resolve_dns_servers_classifies decimal_getaddrinfo true S1_index S2_dns_servers
      [⟨⟨AF_INET, 53, ip4 114 114 114 114⟩, 16⟩, ⟨⟨AF_INET, 53, ip4 8 8 8 8⟩, 16⟩]
      (by decide)).1.trans (by decide),
    (resolve_dns_servers_classifies decimal_getaddrinfo false [] S2_dns_servers
      [⟨⟨AF_INET, 53, ip4 114 114 114 114⟩, 16⟩, ⟨⟨AF_INET, 53, ip4 8 8 8 8⟩, 16⟩]
      (by decide)).2 rfl rfl⟩


theorem dropWhile_ne_of_mem (c : Char) : ∀ (l : List Char), c ∈ l →
    ∃ rest, l.dropWhile (fun x => x != c) = c :: rest := by
  intro l
  induction l with
  | nil => intro h; simp at h
  | cons a l ih =>
    intro h
    by_cases hac : a = c
    · subst hac
      exact ⟨l, by simp [List.dropWhile]⟩
    · have hl : c ∈ l := by
        rcases List.mem_cons.1 h with h1 | h1
        · exact absurd h1.symm hac
        · exact h1
      obtain ⟨rest, hrest⟩ := ih hl
      exact ⟨rest, by rw [List.dropWhile_cons_of_pos (by simpa using hac), hrest]⟩

theorem split_last (c : Char) (g : List Char) (h : c ∈ g) :
    g = ((g.reverse.dropWhile (fun x => x != c)).drop 1).reverse
        ++ c :: (g.reverse.takeWhile (fun x => x != c)).reverse ∧
    c ∉ (g.reverse.takeWhile (fun x => x != c)).reverse := by
  obtain ⟨rest, hrest⟩ := dropWhile_ne_of_mem c g.reverse (List.mem_reverse.2 h)
  have hsplit := List.takeWhile_append_dropWhile (fun x => x != c) g.reverse
  constructor
  · rw [hrest] at hsplit ⊢
    have hrev : g = (g.reverse.takeWhile (fun x => x != c) ++ c :: rest).reverse := by
      rw [hsplit, List.reverse_reverse]
    conv_lhs => rw [hrev]
    simp
  · intro hmem
    have := List.mem_takeWhile_imp (List.mem_reverse.1 hmem)
    simp at this

theorem filter_lengths (p : dns_server → Bool) (l : List dns_server) :
    (l.filter p).length + (l.filter (fun x => !p x)).length = l.length := by
  induction l with
  | nil => rfl
  | cons a l ih =>
    simp only [List.filter_cons]
    cases p a <;> simp <;> omega

/-- Claim C14, as the source behaves.  For every upstream string, the tokens are its non-empty
comma-separated pieces; each token is cut to its first `BUF_SIZE - 1 = 511` characters and
that part is split at its rightmost `:` into host and port, the port being `53` when the part
has no `:`; and when `resolve_dns_servers` succeeds, `getaddrinfo` has resolved every token
and the two arrays together hold as many endpoints as there are tokens. -/
theorem resolve_dns_servers_tokens
    (getaddrinfo : List Char → List Char → Option dns_server) (chnroute_file : Bool)
    (chnroute_list : List net_mask_t) (dns_servers : List Char) :
    (∀ tok ∈ strtok_all dns_servers,
      (':' ∈ tok.take (BUF_SIZE - 1) →
        tok.take (BUF_SIZE - 1) = (host_port tok).1 ++ ':' :: (host_port tok).2 ∧
        ':' ∉ (host_port tok).2) ∧
      (':' ∉ tok.take (BUF_SIZE - 1) →
        host_port tok = (tok.take (BUF_SIZE - 1), ['5', '3'])) ∧
      (tok.length ≤ BUF_SIZE - 1 → tok.take (BUF_SIZE - 1) = tok)) ∧
    (∀ chn foreign,
      resolve_dns_servers getaddrinfo chnroute_file chnroute_list dns_servers
        = some (some (chn, foreign)) →
      (∃ endpoints : List dns_server, (strtok_all dns_servers).map
          (fun tok => getaddrinfo (host_port tok).1 (host_port tok).2) = endpoints.map some) ∧
      chn.length + foreign.length
        = ((dns_servers.splitOn ',').filter (fun t => !t.isEmpty)).length) := by
  constructor
  · intro tok _
    refine ⟨?_, ?_, List.take_of_length_le⟩
    · intro h
      have hs := split_last ':' (tok.take (BUF_SIZE - 1)) h
      simp only [host_port, h, if_true]
      exact hs
    · intro h
      simp only [host_port, h, if_false]
  · intro chn foreign h
    unfold resolve_dns_servers at h
    cases hc : classify_loop getaddrinfo chnroute_list (strtok_all dns_servers) [] [] with
    | none => rw [hc] at h; exact absurd h (by simp)
    | some r =>
      cases r with
      | none => rw [hc] at h; exact absurd h (by simp)
      | some cf =>
        obtain ⟨c, f⟩ := cf
        rw [hc] at h
        have hcf : c = chn ∧ f = foreign := by
          simp only at h
          split_ifs at h <;> simp_all
        obtain ⟨endpoints, hes⟩ := classify_loop_inv getaddrinfo chnroute_list _ _ _ c f hc
        have hspec := classify_loop_spec getaddrinfo chnroute_list _ endpoints [] [] hes
        rw [hc] at hspec
        simp only [List.nil_append, Option.some.injEq, Prod.mk.injEq] at hspec
        refine ⟨⟨endpoints, hes⟩, ?_⟩
        have hlen : (strtok_all dns_servers).length = endpoints.length := by
          have := congrArg List.length hes
          simpa using this
        rw [← hcf.1, ← hcf.2, hspec.1, hspec.2, filter_lengths]
        exact hlen.symm

/-- Scenario S2 as an instance of `resolve_dns_servers_tokens`: the string
`114.114.114.114,8.8.8.8:53` has two tokens, which are resolved as host `114.114.114.114`
with port `53` and host `8.8.8.8` with port `53`, and two endpoints result. -/
theorem resolve_dns_servers_tokens_witness :
    strtok_all S2_dns_servers = ["114.114.114.114".toList, "8.8.8.8:53".toList] ∧
    (strtok_all S2_dns_servers).map host_port
      = [("114.114.114.114".toList, "53".toList), ("8.8.8.8".toList, "53".toList)] ∧
    resolve_dns_servers decimal_getaddrinfo false [] S2_dns_servers
      = some (some ([], [⟨⟨AF_INET, 53, ip4 114 114 114 114⟩, 16⟩,
                         ⟨⟨AF_INET, 53, ip4 8 8 8 8⟩, 16⟩])) ∧
    ([] : List dns_server).length
        + [(⟨⟨AF_INET, 53, ip4 114 114 114 114⟩, 16⟩ : dns_server),
           ⟨⟨AF_INET, 53, ip4 8 8 8 8⟩, 16⟩].length
      = ((S2_dns_servers.splitOn ',').filter (fun t => !t.isEmpty)).length :=
  ⟨by decide, by decide, by decide,
    ((resolve_dns_servers_tokens decimal_getaddrinfo false [] S2_dns_servers).2 []
      [⟨⟨AF_INET, 53, ip4 114 114 114 114⟩, 16⟩, ⟨⟨AF_INET, 53, ip4 8 8 8 8⟩, 16⟩]
      (by decide)).2⟩

set_option maxRecDepth 100000 in
/-- Claim C14, counterexample.  The token `long_token` is 511 times `a` followed by `:5353`.
Its rightmost `:` lies behind the 511 characters that `strncpy` copies, so the source finds no
`:` and passes the host `aaa...a` with the default port `53` to `getaddrinfo`, although the
token has a `:` and the port `5353`. -/
theorem long_token_port :
    strtok_all long_token = [long_token] ∧
    ':' ∈ long_token ∧
    long_token = List.replicate 511 'a' ++ ':' :: "5353".toList ∧
    host_port long_token = (List.replicate 511 'a', "53".toList) := by
  decide


theorem filter_loop_stops (cfg : Config) (is_chn : Bool) (pre post : List (Option ns_rr)) :
    filter_loop cfg is_chn (pre ++ none :: post) = filter_loop cfg is_chn pre := by
  induction pre with
  | nil => rfl
  | cons r rest ih =>
    cases r with
    | none => rfl
    | some rr =>
      simp only [List.cons_append]
      unfold filter_loop
      rw [ih]

/-- Claim C19, as the source behaves.  For every upstream datagram that `ns_initparse` accepts
and whose answer section fails in `ns_parserr` at some record, `should_filter_query` gives the
verdict of the records before the failing one: the failing record and the records after it are
not examined.  When none of the earlier records is offending the verdict is false, and if the
datagram matches a pending entry `dns_handle_remote` forwards it to the client. -/
theorem parse_failure_verdict (env : Env) (s : State) (dgram : List Nat) (src_addr : sockaddr)
    (msg : ns_msg) (pre post : List (Option ns_rr))
    (hparse : env.ns_initparse (recvfrom dgram) = some msg)
    (han : msg.an = pre ++ none :: post) :
    should_filter_query env.cfg msg src_addr.sin_addr
      = should_filter_query env.cfg ⟨msg.id, pre⟩ src_addr.sin_addr ∧
    (should_filter_query env.cfg ⟨msg.id, pre⟩ src_addr.sin_addr = some false →
      ∀ (e : id_addr_t) (a : sockaddr), 0 < (recvfrom dgram).length →
        queue_lookup s.id_addr_queue (msg.id % 65536) = some e → e.addr = some a →
        ∃ s1, dns_handle_remote env s dgram src_addr = some s1 ∧
          s1.sent = s.sent ++ [⟨Sock.local_sock, recvfrom dgram,
            { a with sa_family := AF_INET }, e.addrlen⟩]) := by
  have hv : should_filter_query env.cfg msg src_addr.sin_addr
      = should_filter_query env.cfg ⟨msg.id, pre⟩ src_addr.sin_addr := by
    unfold should_filter_query
    rw [han]
    exact filter_loop_stops env.cfg _ pre post
  refine ⟨hv, ?_⟩
  intro hpre e a hlen hlook ha
  exact ⟨_, dns_handle_remote_hit env s dgram src_addr msg e a false hlen hparse hlook ha
    (hv.trans hpre), by simp⟩

set_option maxRecDepth 100000 in
/-- Instance of `parse_failure_verdict` in scenario S5: the record of `malformed_reply` fails
to parse, no record stands before it, the verdict is false. -/
theorem parse_failure_verdict_witness :
    (wire_env (S4_config true)).ns_initparse (recvfrom malformed_reply) = some ⟨4660, [none]⟩ ∧
    (⟨4660, [none]⟩ : ns_msg).an = [] ++ none :: [] ∧
    should_filter_query (wire_env (S4_config true)).cfg ⟨4660, [none]⟩ S4_foreign.sin_addr
      = should_filter_query (wire_env (S4_config true)).cfg ⟨4660, []⟩ S4_foreign.sin_addr ∧
    should_filter_query (wire_env (S4_config true)).cfg ⟨4660, []⟩ S4_foreign.sin_addr
      = some false :=
  ⟨by decide, rfl,
    (parse_failure_verdict (wire_env (S4_config true)) State.init malformed_reply S4_foreign
      ⟨4660, [none]⟩ [] [] (by decide) rfl).1,
    by decide⟩


/-! ## The filter and the upstream pools on an index whose last entry covers the address -/

/-- Claim C2, at the failing input.  The prefix index is that of scenario S1, the upstream
string is `1.2.3.4,9.9.9.9`: `resolve_dns_servers` puts `1.2.3.4` into the domestic pool and
`9.9.9.9` into the foreign pool.  The address `8.8.8.8` is in the prefix index: `8.8.8.0/24`
covers it and the reference definition says true.  Yet the reply `A = 8.8.8.8` of the domestic
upstream is dropped (the table says keep), and with `bidirectional` on the same reply of the
foreign upstream is kept (the table says drop): `test_ip_in_list` does not find `8.8.8.8`. -/
theorem filter_table_S1 :
    resolve_dns_servers decimal_getaddrinfo true S1_index "1.2.3.4,9.9.9.9".toList
      = some (some ((S1_config false).chn_dns_server_addrs,
                    (S1_config false).foreign_dns_server_addrs)) ∧
    test_ip_in_list (ip4 1 2 3 4) S1_index = some true ∧
    covers ⟨ip4 8 8 8 0, 255⟩ (ip4 8 8 8 8) = true ∧
    contains_spec (ip4 8 8 8 8) S1_index = true ∧
    test_ip_in_list (ip4 8 8 8 8) S1_index = some false ∧
    dns_is_chn (S1_config false) S1_domestic.sin_addr = true ∧
    should_filter_query (S1_config false) (a_reply 7 (ip4 8 8 8 8)) S1_domestic.sin_addr
      = some true ∧
    dns_is_chn (S1_config true) S1_foreign.sin_addr = false ∧
    should_filter_query (S1_config true) (a_reply 7 (ip4 8 8 8 8)) S1_foreign.sin_addr
      = some false := by
  decide

/-- Claim C3, at the failing inputs.  With `bidirectional` off and the index
`{203.0.113.0/24}`, in which `test_ip_in_list` finds `203.0.113.5`, the reply
`A = 203.0.113.5` of the foreign upstream `8.8.8.8` is not dropped: the `return 1` for an
answer inside the index from an upstream that is not domestic stands under
`if (bidirectional)`.  With the index `{1.0.0.0/8, 203.0.113.0/24}`, which covers
`203.0.113.0/24` as well, the same reply of the domestic upstream `1.2.3.4` is dropped:
`test_ip_in_list` does not find `203.0.113.5` in the last entry. -/
theorem S4_replies :
    (S4_config false).bidirectional = false ∧
    covers ⟨ip4 203 0 113 0, 255⟩ (ip4 203 0 113 5) = true ∧
    test_ip_in_list (ip4 203 0 113 5) (S4_config false).chnroute_list = some true ∧
    dns_is_chn (S4_config false) S4_foreign.sin_addr = false ∧
    should_filter_query (S4_config false) (a_reply 7 (ip4 203 0 113 5)) S4_foreign.sin_addr
      = some false ∧
    (S4_config2 false).bidirectional = false ∧
    contains_spec (ip4 203 0 113 5) (S4_config2 false).chnroute_list = true ∧
    test_ip_in_list (ip4 203 0 113 5) (S4_config2 false).chnroute_list = some false ∧
    test_ip_in_list (ip4 1 2 3 4) (S4_config2 false).chnroute_list = some true ∧
    dns_is_chn (S4_config2 false) S1_domestic.sin_addr = true ∧
    should_filter_query (S4_config2 false) (a_reply 7 (ip4 203 0 113 5)) S1_domestic.sin_addr
      = some true := by
  decide

/-- Claim C13, at the failing input.  The prefix file is that of scenario S1, so `8.8.8.8` is
in the prefix index (`8.8.8.0/24` covers it, the reference definition says true) and `9.9.9.9`
is not.  For the upstream string `8.8.8.8,9.9.9.9` both endpoints resolve, but
`resolve_dns_servers` puts `8.8.8.8` into the foreign array, finds the domestic array empty
and returns `-1`.  For `1.2.3.4,8.8.8.8` it succeeds with `1.2.3.4` as the only domestic
endpoint and `8.8.8.8` in the foreign array. -/
theorem resolve_dns_servers_S1 :
    parse_chnroute decimal_libc (some ["1.0.0.0/8\n".toList, "8.8.8.0/24\n".toList])
      = some (some S1_index) ∧
    contains_spec (ip4 8 8 8 8) S1_index = true ∧
    contains_spec (ip4 9 9 9 9) S1_index = false ∧
    contains_spec (ip4 1 2 3 4) S1_index = true ∧
    (strtok_all "8.8.8.8,9.9.9.9".toList).map
        (fun tok => decimal_getaddrinfo (host_port tok).1 (host_port tok).2)
      = [some ⟨⟨AF_INET, 53, ip4 8 8 8 8⟩, 16⟩, some ⟨⟨AF_INET, 53, ip4 9 9 9 9⟩, 16⟩] ∧
    resolve_dns_servers decimal_getaddrinfo true S1_index "8.8.8.8,9.9.9.9".toList
      = some none ∧
    resolve_dns_servers decimal_getaddrinfo true S1_index "1.2.3.4,8.8.8.8".toList
      = some (some ([⟨⟨AF_INET, 53, ip4 1 2 3 4⟩, 16⟩], [⟨⟨AF_INET, 53, ip4 8 8 8 8⟩, 16⟩])) := by
  decide


/-! ## The round trip for datagrams of any length -/

/-- Claim C7, as the source behaves.  Let the bytes that `recvfrom` stores of the client
datagram `Q` parse, with id `i = q.id` and source address `c`, and let `dns_handle_local`
handle it.  After any events among which no client query is stored in slot `i & 0xff`, let the
bytes that `recvfrom` stores of the response `R` parse with id `i` and pass the filter.  Then
`dns_handle_remote` makes exactly one call of `sendto`: on the local socket, to the address of
`c` with the family set to `AF_INET`, and the payload is the first `BUF_SIZE = 512` bytes of
`R`, which is `R` itself when `R` has at most 512 bytes. -/
theorem round_trip_received (env : Env) (s s1 s2 : State) (Q R : List Nat)
    (c usrc : sockaddr) (clen : Nat) (q r : ns_msg) (between : List Event)
    (hQlen : 0 < Q.length)
    (hQ : env.ns_initparse (recvfrom Q) = some q)
    (h1 : dns_handle_local env s Q c clen = some s1)
    (hbetween : ∀ e ∈ between, no_slot_clash env (q.id % 65536) e)
    (h2 : run env s1 between = some s2)
    (hRlen : 0 < R.length)
    (hR : env.ns_initparse (recvfrom R) = some r)
    (hid : r.id % 65536 = q.id % 65536)
    (hpass : should_filter_query env.cfg r usrc.sin_addr = some false) :
    (∃ s3, dns_handle_remote env s2 R usrc = some s3 ∧
      s3.sent = s2.sent ++
        [⟨Sock.local_sock, R.take BUF_SIZE, { c with sa_family := AF_INET }, clen⟩]) ∧
    (R.length ≤ BUF_SIZE → R.take BUF_SIZE = R) := by
  refine ⟨?_, List.take_of_length_le⟩
  obtain ⟨hq1, _⟩ := dns_handle_local_parsed env s s1 Q c clen q
    (recvfrom_length_pos Q hQlen) hQ h1
  have hp1 : pending_for s1.id_addr_queue (q.id % 65536) c clen := by
    rw [hq1]; exact pending_for_queue_add _ _ _ _
  have hp2 := run_pending env between (q.id % 65536) c clen s1 s2 hp1 hbetween h2
  rw [← hid] at hp2
  obtain ⟨s3, hs3, _, hsent⟩ := dns_handle_remote_pending_hit env s2 R usrc r c clen false hp2
    (recvfrom_length_pos R hRlen) hR hpass
  refine ⟨s3, hs3, ?_⟩
  rw [hsent]
  simp [recvfrom]

set_option maxRecDepth 100000 in
/-- Instance of `round_trip_received` in scenario S3 with the 513-byte response `long_reply`:
client X receives its first 512 bytes, which are `padded_reply`. -/
theorem round_trip_received_witness :
    ∃ s1 s3,
      dns_handle_local (long_env (S3_config false)) State.init (example_query 18 52)
        client_X 16 = some s1 ∧
      dns_handle_remote (long_env (S3_config false)) s1 long_reply S4_foreign = some s3 ∧
      s3.sent = s1.sent ++ [⟨Sock.local_sock, long_reply.take BUF_SIZE,
        { client_X with sa_family := AF_INET }, 16⟩] ∧
      long_reply.take BUF_SIZE = padded_reply := by
  obtain ⟨s1, hs1⟩ : ∃ s1, dns_handle_local (long_env (S3_config false)) State.init
      (example_query 18 52) client_X 16 = some s1 := Option.isSome_iff_exists.1 (by decide)
  obtain ⟨⟨s3, hs3, hsent⟩, _⟩ := round_trip_received (long_env (S3_config false)) State.init
    s1 s1 (example_query 18 52) long_reply client_X S4_foreign 16
    ⟨4660, []⟩ (a_reply 4660 (ip4 93 184 216 34)) []
    (by decide) (by decide) hs1 (by simp) rfl (by decide) (by decide) rfl (by decide)
  exact ⟨s1, s3, hs1, hs3, hsent, by decide⟩

set_option maxRecDepth 100000 in
/-- Claim C7, counterexample.  In scenario S3 client X sends the query `example.com` and the
upstream answers with the 513-byte datagram `long_reply`.  `recvfrom` stores its first 512
bytes, which parse with the id of the query and pass the filter, and `dns_handle_remote`
forwards those 512 bytes: the payload that X receives is `padded_reply`, not `long_reply`. -/
theorem long_reply_truncated :
    long_reply.length = BUF_SIZE + 1 ∧
    (long_env (S3_config false)).ns_initparse (recvfrom long_reply)
      = some (a_reply 4660 (ip4 93 184 216 34)) ∧
    should_filter_query (S3_config false) (a_reply 4660 (ip4 93 184 216 34))
      S4_foreign.sin_addr = some false ∧
    (run (long_env (S3_config false)) State.init
      [Event.client (example_query 18 52) client_X 16,
       Event.upstream long_reply S4_foreign]).map forwarded
      = some [⟨Sock.local_sock, padded_reply, client_X, 16⟩] ∧
    padded_reply.length = BUF_SIZE ∧
    padded_reply ≠ long_reply := by
  decide

/-! ## The rewrite for datagrams of any length -/

end ChinaDNS
